import Mathlib

/-!
# Connection table of ip_vs_ca (`src/ca_conn.c`)

A shallow embedding of the dual-index connection table: the two bucket
arrays, the reference-counted entries, the hash / unhash / lookup / put
operations and the timer-driven expiry.

Modelling conventions

* An entry pointer is a natural number (its address).  `State.mem` gives the
  contents of the slab object at every address, `State.allocated` tells which
  objects are currently handed out by `ip_vs_ca_conn_cachep`.  Freeing an
  object leaves its bytes in place, as the slab allocator does.
* A bucket (`struct list_head` with the entries chained through `s_list` or
  `c_list`) is the list of the entry pointers in traversal order;
  `list_add` inserts right behind the head, i.e. in front of the list.
* The semantics is the sequential one: each operation runs to completion.
  The `ct_*lock*` calls that bracket the critical sections neither read nor
  write the table data and are not part of the table functions below; the
  locking protocol is modelled on its own: `ct_lock2` and `ct_unlock2` are
  the sequences of rwlock calls they make, `run_locks` the write locks held
  after such a sequence.
* `atomic_t` and the other integer fields are unbounded integers: the
  operations are modelled without wrap-around.
* Constants and helpers from `ca.h` and from the kernel are parameters
  collected in `Env`; the static variables of `ca_conn.c` that are fixed once
  the module is initialised are collected in `Globals`.
-/

namespace CaConn

/-- The `union nf_inet_addr`: sixteen bytes seen as four 32-bit words; the
IPv4 member `ip` aliases the first word. -/
structure nf_inet_addr where
  w0 : Nat
  w1 : Nat
  w2 : Nat
  w3 : Nat
deriving DecidableEq

/-- The member `ip` of the address union. -/
def nf_inet_addr.ip (a : nf_inet_addr) : Nat := a.w0

/-- The kernel `struct timer_list`, reduced to what the table uses: whether
`setup_timer` has installed the callback, the callback argument, whether the
timer is pending and its expiry time. -/
structure timer_list where
  function_set : Bool
  data : Nat
  pending : Bool
  expires : Nat
deriving DecidableEq

/-- The fields of `struct ip_vs_ca_conn` that `ca_conn.c` reads or writes.
The list linkage `s_list` / `c_list` is represented by the bucket lists. -/
structure ip_vs_ca_conn where
  af : Int
  protocol : Nat
  s_addr : nf_inet_addr
  s_port : Nat
  c_addr : nf_inet_addr
  c_port : Nat
  d_addr : nf_inet_addr
  d_port : Nat
  flags : Nat
  refcnt : Int
  state : Nat
  timeout : Nat
  timer : timer_list
deriving DecidableEq

/-- The fields of `struct ip_vs_ca_protocol` used by `ip_vs_ca_conn_new`:
the protocol number and the value `*pp->timeout`. -/
structure ip_vs_ca_protocol where
  protocol : Nat
  timeout : Nat

/-- Parameters that `ca_conn.c` takes from `ca.h`, from the kernel
configuration and from `linux/jhash.h`. -/
structure Env where
  HZ : Nat
  IP_VS_CA_CONN_F_HASHED : Nat
  IP_VS_CA_IN : Int
  CONFIG_IP_VS_CA_IPV6 : Bool
  jhash_3words : Nat → Nat → Nat → Nat → Nat
  jhash : nf_inet_addr → Nat → Nat → Nat

/-- The static variables of `ca_conn.c` that are written at module
initialisation only. -/
structure Globals where
  ip_vs_ca_conn_rnd : Nat
  ip_vs_ca_conn_tab_bits : Nat
  ip_vs_ca_conn_tab_size : Nat
  ip_vs_ca_conn_tab_mask : Nat
  ct_lockarray_bits : Nat
  ct_lockarray_size : Nat
  ct_lockarray_mask : Nat

/-- The mutable state of the table: slab memory, which objects are
allocated, how often `kmem_cache_zalloc` succeeded and `kmem_cache_free` was
called, the two bucket arrays and the live-entry counter. -/
@[ext]
structure State where
  mem : Nat → ip_vs_ca_conn
  allocated : Nat → Bool
  kmem_allocs : Nat
  kmem_frees : Nat
  ip_vs_ca_conn_tab_s : Nat → List Nat
  ip_vs_ca_conn_tab_c : Nat → List Nat
  ip_vs_ca_conn_count : Int

/-- The Linux address family constant `AF_INET`. -/
def AF_INET : Int := 2

/-- The Linux address family constant `AF_INET6`. -/
def AF_INET6 : Int := 10

/-- The value `x & ~m` of unsigned machine words: `x` with every bit of `m`
cleared. -/
def and_not (x m : Nat) : Nat := x ^^^ (x &&& m)

/-- An all-zero timer, as found in memory returned by `kmem_cache_zalloc`. -/
def zero_timer : timer_list :=
  { function_set := false, data := 0, pending := false, expires := 0 }

/-- An all-zero address. -/
def zero_addr : nf_inet_addr := { w0 := 0, w1 := 0, w2 := 0, w3 := 0 }

/-- An all-zero entry, as returned by `kmem_cache_zalloc`. -/
def zero_conn : ip_vs_ca_conn :=
  { af := 0, protocol := 0, s_addr := zero_addr, s_port := 0,
    c_addr := zero_addr, c_port := 0, d_addr := zero_addr, d_port := 0,
    flags := 0, refcnt := 0, state := 0, timeout := 0, timer := zero_timer }

/-- Write to the entry at address `cp`. -/
def State.upd (st : State) (cp : Nat) (f : ip_vs_ca_conn → ip_vs_ca_conn) : State :=
  { st with mem := fun p => if p = cp then f (st.mem p) else st.mem p }

/-- The kernel `list_add(new, head)` on a bucket array: the entry is put at
the front of bucket `head`. -/
def list_add (new head : Nat) (tab : Nat → List Nat) : Nat → List Nat :=
  fun i => if i = head then new :: tab i else tab i

/-- The kernel `list_del(entry)`: the entry is taken out of the list it is
chained into, whichever bucket that is. -/
def list_del (entry : Nat) (tab : Nat → List Nat) : Nat → List Nat :=
  fun i => (tab i).filter (fun x => x != entry)

/-- The kernel `atomic_inc(&cp->refcnt)`. -/
def atomic_inc_refcnt (cp : Nat) (st : State) : State :=
  st.upd cp (fun c => { c with refcnt := c.refcnt + 1 })

/-- The kernel `atomic_dec(&cp->refcnt)`. -/
def atomic_dec_refcnt (cp : Nat) (st : State) : State :=
  st.upd cp (fun c => { c with refcnt := c.refcnt - 1 })

/-- The kernel `setup_timer`: installs callback and argument; the timer is
not pending. -/
def setup_timer (_t : timer_list) (data : Nat) : timer_list :=
  { function_set := true, data := data, pending := false, expires := _t.expires }

/-- The kernel `mod_timer`: the timer becomes pending with the given expiry. -/
def mod_timer (t : timer_list) (expires : Nat) : timer_list :=
  { t with pending := true, expires := expires }

/-- The kernel `del_timer`: the timer is no longer pending. -/
def del_timer (t : timer_list) : timer_list :=
  { t with pending := false }

/-- The kernel `kmem_cache_zalloc` returning the object at address `cp`:
the object is zeroed and marked allocated. -/
def kmem_cache_zalloc (cp : Nat) (st : State) : State :=
  { st with
    mem := fun p => if p = cp then zero_conn else st.mem p
    allocated := fun p => if p = cp then true else st.allocated p
    kmem_allocs := st.kmem_allocs + 1 }

/-- The kernel `kmem_cache_free`: the object is handed back; its bytes stay. -/
def kmem_cache_free (cp : Nat) (st : State) : State :=
  { st with
    allocated := fun p => if p = cp then false else st.allocated p
    kmem_frees := st.kmem_frees + 1 }

/-- Modelled from the spec: `ip_vs_ca_addr_equal` is defined in `ca.h`, which
is not among the sources.  Two addresses of a family are equal iff their
address bytes match: all sixteen bytes for IPv6 (when compiled in), the four
bytes of `ip` otherwise. -/
def ip_vs_ca_addr_equal (E : Env) (af : Int) (a b : nf_inet_addr) : Bool :=
  if E.CONFIG_IP_VS_CA_IPV6 = true ∧ af = AF_INET6 then decide (a = b)
  else decide (a.ip = b.ip)

/-- Modelled from the spec: `ip_vs_ca_addr_copy` is defined in `ca.h`, which
is not among the sources.  It copies the address bytes of the family: all
sixteen bytes for IPv6 (when compiled in), the four bytes of `ip` otherwise. -/
def ip_vs_ca_addr_copy (E : Env) (af : Int) (dst src : nf_inet_addr) : nf_inet_addr :=
  if E.CONFIG_IP_VS_CA_IPV6 = true ∧ af = AF_INET6 then src
  else { dst with w0 := src.ip }

/-- Modelled from the spec: `__ip_vs_ca_conn_put` is defined in `ca.h`, which
is not among the sources.  It releases the caller's reference by one atomic
decrement of the reference count. -/
def __ip_vs_ca_conn_put (cp : Nat) (st : State) : State :=
  atomic_dec_refcnt cp st

/-- The function `ip_vs_ca_conn_hashkey` (lines 98-109). -/
def ip_vs_ca_conn_hashkey (E : Env) (G : Globals) (af : Int) (proto : Nat)
    (addr : nf_inet_addr) (port : Nat) : Nat :=
  if E.CONFIG_IP_VS_CA_IPV6 = true ∧ af = AF_INET6 then
    E.jhash_3words (E.jhash addr 16 G.ip_vs_ca_conn_rnd) port proto G.ip_vs_ca_conn_rnd
      &&& G.ip_vs_ca_conn_tab_mask
  else
    E.jhash_3words addr.ip port proto G.ip_vs_ca_conn_rnd &&& G.ip_vs_ca_conn_tab_mask

/-- The function `__ip_vs_ca_conn_hash` (lines 157-174). -/
def __ip_vs_ca_conn_hash (E : Env) (cp shash chash : Nat) (st : State) : Int × State :=
  if (st.mem cp).flags &&& E.IP_VS_CA_CONN_F_HASHED = 0 then
    let st1 := { st with ip_vs_ca_conn_tab_s := list_add cp shash st.ip_vs_ca_conn_tab_s }
    let st2 := { st1 with ip_vs_ca_conn_tab_c := list_add cp chash st1.ip_vs_ca_conn_tab_c }
    let st3 := st2.upd cp (fun c => { c with flags := c.flags ||| E.IP_VS_CA_CONN_F_HASHED })
    let st4 := atomic_inc_refcnt cp st3
    (1, st4)
  else
    (0, st)

/-- The function `ip_vs_ca_conn_hash` (lines 181-198). -/
def ip_vs_ca_conn_hash (E : Env) (G : Globals) (cp : Nat) (st : State) : Int × State :=
  let shash := ip_vs_ca_conn_hashkey E G (st.mem cp).af (st.mem cp).protocol
    (st.mem cp).s_addr (st.mem cp).s_port
  let chash := ip_vs_ca_conn_hashkey E G (st.mem cp).af (st.mem cp).protocol
    (st.mem cp).c_addr (st.mem cp).c_port
  __ip_vs_ca_conn_hash E cp shash chash st

/-- The function `ip_vs_ca_conn_unhash` (lines 205-232). -/
def ip_vs_ca_conn_unhash (E : Env) (_G : Globals) (cp : Nat) (st : State) : Int × State :=
  if (st.mem cp).flags &&& E.IP_VS_CA_CONN_F_HASHED ≠ 0 ∧ (st.mem cp).refcnt = 2 then
    let st1 := { st with ip_vs_ca_conn_tab_s := list_del cp st.ip_vs_ca_conn_tab_s }
    let st2 := { st1 with ip_vs_ca_conn_tab_c := list_del cp st1.ip_vs_ca_conn_tab_c }
    let st3 := st2.upd cp (fun c => { c with flags := and_not c.flags E.IP_VS_CA_CONN_F_HASHED })
    let st4 := atomic_dec_refcnt cp st3
    (1, st4)
  else
    (0, st)

/-- The function `ip_vs_ca_conn_put` (lines 400-405); `jiffies` is the
current time read by the call. -/
def ip_vs_ca_conn_put (jiffies cp : Nat) (st : State) : State :=
  let st1 := st.upd cp (fun c => { c with timer := mod_timer c.timer (jiffies + c.timeout) })
  __ip_vs_ca_conn_put cp st1

/-- The function `ip_vs_ca_conn_expire` (lines 234-294), the timer callback;
`jiffies` is the current time read by the call. -/
def ip_vs_ca_conn_expire (E : Env) (G : Globals) (jiffies data : Nat) (st : State) : State :=
  let cp := data
  let st1 := st.upd cp (fun c => { c with timeout := 60 * E.HZ })
  let st2 := atomic_inc_refcnt cp st1
  let r := ip_vs_ca_conn_unhash E G cp st2
  if r.1 = 0 then
    ip_vs_ca_conn_put jiffies cp r.2
  else if (r.2.mem cp).refcnt = 1 then
    let st3 :=
      if (r.2.mem cp).timer.pending = true then
        r.2.upd cp (fun c => { c with timer := del_timer c.timer })
      else r.2
    let st4 := { st3 with ip_vs_ca_conn_count := st3.ip_vs_ca_conn_count - 1 }
    if (st4.mem cp).af = AF_INET then
      kmem_cache_free cp st4
    else if E.CONFIG_IP_VS_CA_IPV6 = true ∧ (st4.mem cp).af = AF_INET6 then
      kmem_cache_free cp st4
    else
      ip_vs_ca_conn_put jiffies cp (ip_vs_ca_conn_hash E G cp st4).2
  else
    ip_vs_ca_conn_put jiffies cp (ip_vs_ca_conn_hash E G cp r.2).2

/-- The function `ip_vs_ca_conn_new` (lines 296-355).  `alloc` is the result
of `kmem_cache_zalloc`: `none` for `NULL`, otherwise the address of the
object.  The argument `skb` is not used by the function and is left out; the
debug and statistics macros have no effect on the table. -/
def ip_vs_ca_conn_new (E : Env) (G : Globals) (alloc : Option Nat) (af : Int)
    (pp : ip_vs_ca_protocol) (saddr : nf_inet_addr) (sport : Nat)
    (daddr : nf_inet_addr) (dport : Nat) (caddr : nf_inet_addr) (cport : Nat)
    (st : State) : Option Nat × State :=
  match alloc with
  | none => (none, st)
  | some cp =>
    let st1 := kmem_cache_zalloc cp st
    let st2 := st1.upd cp (fun c => { c with timer := setup_timer c.timer cp })
    let st3 := st2.upd cp (fun c => { c with af := af, protocol := pp.protocol })
    let st4 := st3.upd cp (fun c =>
      { c with s_addr := ip_vs_ca_addr_copy E af c.s_addr saddr, s_port := sport })
    let st5 := st4.upd cp (fun c =>
      { c with c_addr := ip_vs_ca_addr_copy E af c.c_addr caddr, c_port := cport })
    let st6 := st5.upd cp (fun c =>
      { c with d_addr := ip_vs_ca_addr_copy E af c.d_addr daddr, d_port := dport })
    let st7 := st6.upd cp (fun c => { c with flags := 0 })
    let st8 := st7.upd cp (fun c => { c with refcnt := 1 })
    let st9 := { st8 with ip_vs_ca_conn_count := st8.ip_vs_ca_conn_count + 1 }
    let st10 := st9.upd cp (fun c => { c with state := 0, timeout := pp.timeout })
    (some cp, (ip_vs_ca_conn_hash E G cp st10).2)

/-- The loop condition of the server-direction scan in `ip_vs_ca_conn_get`
(lines 371-374). -/
def match_s (E : Env) (st : State) (af : Int) (protocol : Nat) (addr : nf_inet_addr)
    (port : Nat) (cp : Nat) : Bool :=
  decide ((st.mem cp).af = af) && ip_vs_ca_addr_equal E af addr (st.mem cp).s_addr
    && decide (port = (st.mem cp).s_port) && decide (protocol = (st.mem cp).protocol)

/-- The loop condition of the client-direction scan in `ip_vs_ca_conn_get`
(lines 385-388). -/
def match_c (E : Env) (st : State) (af : Int) (protocol : Nat) (addr : nf_inet_addr)
    (port : Nat) (cp : Nat) : Bool :=
  decide ((st.mem cp).af = af) && ip_vs_ca_addr_equal E af addr (st.mem cp).c_addr
    && decide (port = (st.mem cp).c_port) && decide (protocol = (st.mem cp).protocol)

/-- The function `ip_vs_ca_conn_get` (lines 360-398): the first entry of the
bucket that matches, with its reference count incremented, or `none` for
`NULL`. -/
def ip_vs_ca_conn_get (E : Env) (G : Globals) (af : Int) (protocol : Nat)
    (addr : nf_inet_addr) (port : Nat) (dir : Int) (st : State) : Option Nat × State :=
  let hash := ip_vs_ca_conn_hashkey E G af protocol addr port
  if dir = E.IP_VS_CA_IN then
    match (st.ip_vs_ca_conn_tab_s hash).find? (match_s E st af protocol addr port) with
    | some cp => (some cp, atomic_inc_refcnt cp st)
    | none => (none, st)
  else
    match (st.ip_vs_ca_conn_tab_c hash).find? (match_c E st af protocol addr port) with
    | some cp => (some cp, atomic_inc_refcnt cp st)
    | none => (none, st)

/-- The table right after `ip_vs_ca_conn_init`: every bucket empty, no entry
allocated, the live-entry counter zero. -/
def init_state : State :=
  { mem := fun _ => zero_conn
    allocated := fun _ => false
    kmem_allocs := 0
    kmem_frees := 0
    ip_vs_ca_conn_tab_s := fun _ => []
    ip_vs_ca_conn_tab_c := fun _ => []
    ip_vs_ca_conn_count := 0 }

/-! ## Predicates on states -/

/-- The entry has the HASHED flag set: `flags & IP_VS_CA_CONN_F_HASHED` is
non-zero. -/
def is_hashed (E : Env) (c : ip_vs_ca_conn) : Prop :=
  c.flags &&& E.IP_VS_CA_CONN_F_HASHED ≠ 0

instance is_hashed_decidable (E : Env) (c : ip_vs_ca_conn) : Decidable (is_hashed E c) :=
  inferInstanceAs (Decidable (c.flags &&& E.IP_VS_CA_CONN_F_HASHED ≠ 0))

/-- The index of the server bucket of an entry, as computed by
`ip_vs_ca_conn_hash` and `ip_vs_ca_conn_unhash`. -/
def shash (E : Env) (G : Globals) (c : ip_vs_ca_conn) : Nat :=
  ip_vs_ca_conn_hashkey E G c.af c.protocol c.s_addr c.s_port

/-- The index of the client bucket of an entry, as computed by
`ip_vs_ca_conn_hash` and `ip_vs_ca_conn_unhash`. -/
def chash (E : Env) (G : Globals) (c : ip_vs_ca_conn) : Nat :=
  ip_vs_ca_conn_hashkey E G c.af c.protocol c.c_addr c.c_port

/-- The fields of an entry that determine its two bucket indices. -/
def conn_key (c : ip_vs_ca_conn) : Int × Nat × nf_inet_addr × Nat × nf_inet_addr × Nat :=
  (c.af, c.protocol, c.s_addr, c.s_port, c.c_addr, c.c_port)

/-- The entry is chained exactly once into bucket `i` of the table and into
no other bucket. -/
def linked_at (tab : Nat → List Nat) (i cp : Nat) : Prop :=
  (tab i).count cp = 1 ∧ ∀ j, j ≠ i → cp ∉ tab j

/-- The entry is chained into exactly one bucket of the table. -/
def linked_once (tab : Nat → List Nat) (cp : Nat) : Prop :=
  ∃ i, linked_at tab i cp

/-- The entry is chained into no bucket of the table. -/
def unlinked (tab : Nat → List Nat) (cp : Nat) : Prop :=
  ∀ j, cp ∉ tab j

/-- The consistency of flags and linkage: an allocated entry with the HASHED
flag is chained once into its server bucket and once into its client bucket;
every other object is chained nowhere; a pending timer belongs to an
allocated entry. -/
structure TableInv (E : Env) (G : Globals) (st : State) : Prop where
  hashed_linked : ∀ cp, st.allocated cp = true → is_hashed E (st.mem cp) →
    linked_at st.ip_vs_ca_conn_tab_s (shash E G (st.mem cp)) cp ∧
    linked_at st.ip_vs_ca_conn_tab_c (chash E G (st.mem cp)) cp
  other_unlinked : ∀ cp, (st.allocated cp = false ∨ ¬ is_hashed E (st.mem cp)) →
    unlinked st.ip_vs_ca_conn_tab_s cp ∧ unlinked st.ip_vs_ca_conn_tab_c cp
  timer_alloc : ∀ cp, (st.mem cp).timer.pending = true → st.allocated cp = true

/-! ## Transition systems -/

/-- One call of an operation of the table.  The allocator hands out an
object that is not allocated; `hash`, `unhash` and `put` are called on
allocated entries; the expiry callback runs for an allocated entry or for an
entry whose timer is pending. -/
inductive Step (E : Env) (G : Globals) : State → State → Prop
  | new (st : State) (alloc : Option Nat) (af : Int) (pp : ip_vs_ca_protocol)
      (saddr : nf_inet_addr) (sport : Nat) (daddr : nf_inet_addr) (dport : Nat)
      (caddr : nf_inet_addr) (cport : Nat)
      (hfresh : ∀ p, alloc = some p → st.allocated p = false) :
      Step E G st
        (ip_vs_ca_conn_new E G alloc af pp saddr sport daddr dport caddr cport st).2
  | hash (st : State) (cp : Nat) (h : st.allocated cp = true) :
      Step E G st (ip_vs_ca_conn_hash E G cp st).2
  | unhash (st : State) (cp : Nat) (h : st.allocated cp = true) :
      Step E G st (ip_vs_ca_conn_unhash E G cp st).2
  | get (st : State) (af : Int) (protocol : Nat) (addr : nf_inet_addr) (port : Nat)
      (dir : Int) :
      Step E G st (ip_vs_ca_conn_get E G af protocol addr port dir st).2
  | put (st : State) (jiffies cp : Nat) (h : st.allocated cp = true) :
      Step E G st (ip_vs_ca_conn_put jiffies cp st)
  | expire (st : State) (jiffies cp : Nat)
      (h : st.allocated cp = true ∨ (st.mem cp).timer.pending = true) :
      Step E G st (ip_vs_ca_conn_expire E G jiffies cp st)

/-- The states reachable from the initialised empty table by calls of
`new`, `hash`, `unhash`, `get`, `put` and `expire`. -/
inductive Reachable (E : Env) (G : Globals) : State → Prop
  | init : Reachable E G init_state
  | step {st st1 : State} : Reachable E G st → Step E G st st1 → Reachable E G st1

/-- The table together with the number of references each entry's callers
hold: those handed out by `new` or by a `get` hit and not yet given back by
`put`. -/
structure Sys where
  st : State
  held : Nat → Nat

/-- The references held after a call that returned `r`: one more for the
returned entry. -/
def hand_out (r : Option Nat) (held : Nat → Nat) : Nat → Nat :=
  fun q => if r = some q then held q + 1 else held q

/-- One call of `new`, `get`, `put` or `expire` by callers that put exactly
the references they were handed: `put(cp)` needs a reference on `cp` held by
a caller, and gives it back. -/
inductive DStep (E : Env) (G : Globals) : Sys → Sys → Prop
  | new (s : Sys) (alloc : Option Nat) (af : Int) (pp : ip_vs_ca_protocol)
      (saddr : nf_inet_addr) (sport : Nat) (daddr : nf_inet_addr) (dport : Nat)
      (caddr : nf_inet_addr) (cport : Nat)
      (hfresh : ∀ p, alloc = some p → s.st.allocated p = false) :
      DStep E G s
        { st := (ip_vs_ca_conn_new E G alloc af pp saddr sport daddr dport caddr cport s.st).2
          held := hand_out
            (ip_vs_ca_conn_new E G alloc af pp saddr sport daddr dport caddr cport s.st).1
            s.held }
  | get (s : Sys) (af : Int) (protocol : Nat) (addr : nf_inet_addr) (port : Nat)
      (dir : Int) :
      DStep E G s
        { st := (ip_vs_ca_conn_get E G af protocol addr port dir s.st).2
          held := hand_out (ip_vs_ca_conn_get E G af protocol addr port dir s.st).1 s.held }
  | put (s : Sys) (jiffies cp : Nat) (h : 0 < s.held cp) :
      DStep E G s
        { st := ip_vs_ca_conn_put jiffies cp s.st
          held := fun q => if q = cp then s.held q - 1 else s.held q }
  | expire (s : Sys) (jiffies cp : Nat)
      (h : s.st.allocated cp = true ∨ (s.st.mem cp).timer.pending = true) :
      DStep E G s { st := ip_vs_ca_conn_expire E G jiffies cp s.st, held := s.held }

/-- The states reachable from the initialised empty table, with no
reference held, by such disciplined calls. -/
inductive DReachable (E : Env) (G : Globals) : Sys → Prop
  | init : DReachable E G { st := init_state, held := fun _ => 0 }
  | step {s s1 : Sys} : DReachable E G s → DStep E G s s1 → DReachable E G s1

/-- The reference accounting of disciplined callers: every allocated entry
is hashed and its reference count is the table's reference plus the
references its callers hold; nobody holds a reference to an object that is
not allocated. -/
structure RefInv (E : Env) (s : Sys) : Prop where
  counted : ∀ cp, s.st.allocated cp = true →
    is_hashed E (s.st.mem cp) ∧ (s.st.mem cp).refcnt = 1 + (s.held cp : Int)
  free_unheld : ∀ cp, s.st.allocated cp = false → s.held cp = 0

/-! ## Auxiliary definitions for the expiry callback -/

/-- The address families whose entries the expiry callback frees. -/
def freed_family (E : Env) (af : Int) : Prop :=
  af = AF_INET ∨ (E.CONFIG_IP_VS_CA_IPV6 = true ∧ af = AF_INET6)

/-- Lines 253-293 of `ip_vs_ca_conn_expire`: what the callback does once
`ip_vs_ca_conn_unhash` has succeeded, on the state `s` it left. -/
def expire_unhashed (E : Env) (G : Globals) (jiffies cp : Nat) (s : State) : State :=
  if (s.mem cp).refcnt = 1 then
    let st3 :=
      if (s.mem cp).timer.pending = true then
        s.upd cp (fun c => { c with timer := del_timer c.timer })
      else s
    let st4 := { st3 with ip_vs_ca_conn_count := st3.ip_vs_ca_conn_count - 1 }
    if (st4.mem cp).af = AF_INET then
      kmem_cache_free cp st4
    else if E.CONFIG_IP_VS_CA_IPV6 = true ∧ (st4.mem cp).af = AF_INET6 then
      kmem_cache_free cp st4
    else
      ip_vs_ca_conn_put jiffies cp (ip_vs_ca_conn_hash E G cp st4).2
  else
    ip_vs_ca_conn_put jiffies cp (ip_vs_ca_conn_hash E G cp s).2

/-- The contents `ip_vs_ca_conn_new` gives the fresh entry at address `cp`
before it hashes it (lines 314-335). -/
def new_conn (E : Env) (cp : Nat) (af : Int) (pp : ip_vs_ca_protocol)
    (saddr : nf_inet_addr) (sport : Nat) (daddr : nf_inet_addr) (dport : Nat)
    (caddr : nf_inet_addr) (cport : Nat) : ip_vs_ca_conn :=
  { af := af, protocol := pp.protocol,
    s_addr := ip_vs_ca_addr_copy E af zero_addr saddr, s_port := sport,
    c_addr := ip_vs_ca_addr_copy E af zero_addr caddr, c_port := cport,
    d_addr := ip_vs_ca_addr_copy E af zero_addr daddr, d_port := dport,
    flags := 0, refcnt := 1, state := 0, timeout := pp.timeout,
    timer := setup_timer zero_timer cp }

/-- The state `ip_vs_ca_conn_new` has built when it calls
`ip_vs_ca_conn_hash` (line 337). -/
def new_pre_hash (E : Env) (cp : Nat) (af : Int) (pp : ip_vs_ca_protocol)
    (saddr : nf_inet_addr) (sport : Nat) (daddr : nf_inet_addr) (dport : Nat)
    (caddr : nf_inet_addr) (cport : Nat) (st : State) : State :=
  { st with
    mem := fun p =>
      if p = cp then new_conn E cp af pp saddr sport daddr dport caddr cport else st.mem p
    allocated := fun p => if p = cp then true else st.allocated p
    kmem_allocs := st.kmem_allocs + 1
    ip_vs_ca_conn_count := st.ip_vs_ca_conn_count + 1 }

/-! ## The lock arrays -/

/-- The two lock arrays: `__ip_vs_ca_conntbl_lock_array_s` and
`__ip_vs_ca_conntbl_lock_array_c`. -/
inductive lock_array
  | s
  | c
deriving DecidableEq

/-- One lock: an element of one of the two lock arrays. -/
structure lock_ref where
  arr : lock_array
  idx : Nat
deriving DecidableEq

/-- One call of a kernel rwlock primitive on a lock of the arrays. -/
inductive lock_op
  | read_lock (l : lock_ref)
  | read_unlock (l : lock_ref)
  | write_lock (l : lock_ref)
  | write_unlock (l : lock_ref)
deriving DecidableEq

/-- The function `ct_read_lock_bh_s` (lines 55-58). -/
def ct_read_lock_bh_s (G : Globals) (key : Nat) : lock_op :=
  lock_op.read_lock { arr := lock_array.s, idx := key &&& G.ct_lockarray_mask }

/-- The function `ct_read_unlock_bh_s` (lines 60-63). -/
def ct_read_unlock_bh_s (G : Globals) (key : Nat) : lock_op :=
  lock_op.read_unlock { arr := lock_array.s, idx := key &&& G.ct_lockarray_mask }

/-- The function `ct_write_lock_bh_s` (lines 65-68). -/
def ct_write_lock_bh_s (G : Globals) (key : Nat) : lock_op :=
  lock_op.write_lock { arr := lock_array.s, idx := key &&& G.ct_lockarray_mask }

/-- The function `ct_write_unlock_bh_s` (lines 70-73). -/
def ct_write_unlock_bh_s (G : Globals) (key : Nat) : lock_op :=
  lock_op.write_unlock { arr := lock_array.s, idx := key &&& G.ct_lockarray_mask }

/-- The function `ct_read_lock_bh_c` (lines 75-78). -/
def ct_read_lock_bh_c (G : Globals) (key : Nat) : lock_op :=
  lock_op.read_lock { arr := lock_array.c, idx := key &&& G.ct_lockarray_mask }

/-- The function `ct_read_unlock_bh_c` (lines 80-83). -/
def ct_read_unlock_bh_c (G : Globals) (key : Nat) : lock_op :=
  lock_op.read_unlock { arr := lock_array.c, idx := key &&& G.ct_lockarray_mask }

/-- The function `ct_write_lock_bh_c` (lines 85-88). -/
def ct_write_lock_bh_c (G : Globals) (key : Nat) : lock_op :=
  lock_op.write_lock { arr := lock_array.c, idx := key &&& G.ct_lockarray_mask }

/-- The function `ct_write_unlock_bh_c` (lines 90-93). -/
def ct_write_unlock_bh_c (G : Globals) (key : Nat) : lock_op :=
  lock_op.write_unlock { arr := lock_array.c, idx := key &&& G.ct_lockarray_mask }

/-- The function `ct_lock2` (lines 114-130): the lock calls it makes, in
program order. -/
def ct_lock2 (G : Globals) (shash chash : Nat) : List lock_op :=
  let slock := shash &&& G.ct_lockarray_mask
  let clock := chash &&& G.ct_lockarray_mask
  if slock < clock then
    [ct_write_lock_bh_s G shash, ct_write_lock_bh_c G chash]
  else if slock > clock then
    [ct_write_lock_bh_c G chash, ct_write_lock_bh_s G shash]
  else
    [ct_write_lock_bh_s G shash]

/-- The function `ct_unlock2` (lines 135-151): the unlock calls it makes, in
program order. -/
def ct_unlock2 (G : Globals) (shash chash : Nat) : List lock_op :=
  let slock := shash &&& G.ct_lockarray_mask
  let clock := chash &&& G.ct_lockarray_mask
  if slock < clock then
    [ct_write_unlock_bh_c G chash, ct_write_unlock_bh_s G shash]
  else if slock > clock then
    [ct_write_unlock_bh_s G shash, ct_write_unlock_bh_c G chash]
  else
    [ct_write_unlock_bh_c G shash]

/-- The lock a lock operation acts on. -/
def lock_op.target : lock_op → lock_ref
  | lock_op.read_lock l => l
  | lock_op.read_unlock l => l
  | lock_op.write_lock l => l
  | lock_op.write_unlock l => l

/-- The write locks a sequence of calls acquires, in order. -/
def acquired (ops : List lock_op) : List lock_ref :=
  ops.filterMap (fun op => match op with
    | lock_op.write_lock l => some l
    | _ => none)

/-- The write locks a sequence of calls releases, in order. -/
def released (ops : List lock_op) : List lock_ref :=
  ops.filterMap (fun op => match op with
    | lock_op.write_unlock l => some l
    | _ => none)

/-- The write locks held after one lock call, given those held before: a
write lock is added on acquisition and taken away on release. -/
def lock_step (held : List lock_ref) (op : lock_op) : List lock_ref :=
  match op with
  | lock_op.write_lock l => l :: held
  | lock_op.write_unlock l => held.erase l
  | _ => held

/-- The write locks held after a sequence of lock calls. -/
def run_locks (ops : List lock_op) (held : List lock_ref) : List lock_ref :=
  ops.foldl lock_step held

/-- The write locks held while `ip_vs_ca_conn_hash` (between lines 191 and
195) or `ip_vs_ca_conn_unhash` (between lines 216 and 229) changes the
buckets of the entry `c`, when no lock was held at the call. -/
def critical_section_locks (E : Env) (G : Globals) (c : ip_vs_ca_conn) : List lock_ref :=
  run_locks (ct_lock2 G (shash E G c) (chash E G c)) []

/-- The lock `ip_vs_ca_conn_get` read-locks while it scans (lines 369 and
383): of the server array in direction `IP_VS_CA_IN`, of the client array
otherwise. -/
def get_read_lock (E : Env) (G : Globals) (af : Int) (protocol : Nat)
    (addr : nf_inet_addr) (port : Nat) (dir : Int) : lock_op :=
  if dir = E.IP_VS_CA_IN then
    ct_read_lock_bh_s G (ip_vs_ca_conn_hashkey E G af protocol addr port)
  else
    ct_read_lock_bh_c G (ip_vs_ca_conn_hashkey E G af protocol addr port)

/-! ## Initialisation and flush -/

/-- The function `conn_tab_size_init` (lines 442-449).  The C expression
`1 << bits` on `int` is the natural number `2 ^ bits` for `0 <= bits <= 30`,
the range in which it does not overflow. -/
def conn_tab_size_init (G : Globals) : Globals :=
  let tab_size := 1 <<< G.ip_vs_ca_conn_tab_bits
  let tab_mask := tab_size - 1
  let lockarray_bits := G.ip_vs_ca_conn_tab_bits
  let lockarray_size := 1 <<< lockarray_bits
  let lockarray_mask := lockarray_size - 1
  { G with
    ip_vs_ca_conn_tab_size := tab_size
    ip_vs_ca_conn_tab_mask := tab_mask
    ct_lockarray_bits := lockarray_bits
    ct_lockarray_size := lockarray_size
    ct_lockarray_mask := lockarray_mask }

/-- The function `ip_vs_ca_conn_expire_now` (lines 407-411): `del_timer`
deactivates the timer and tells whether it was pending; only then the timer
is armed to fire at once. -/
def ip_vs_ca_conn_expire_now (jiffies cp : Nat) (st : State) : State :=
  let was_pending := (st.mem cp).timer.pending
  let st1 := st.upd cp (fun c => { c with timer := del_timer c.timer })
  if was_pending = true then
    st1.upd cp (fun c => { c with timer := mod_timer c.timer jiffies })
  else
    st1

/-- The inner loop of `ip_vs_ca_conn_flush` (lines 427-430) over the server
bucket `idx`. -/
def flush_bucket (jiffies idx : Nat) (st : State) : State :=
  (st.ip_vs_ca_conn_tab_s idx).foldl (fun s cp => ip_vs_ca_conn_expire_now jiffies cp s) st

/-- The outer loop of `ip_vs_ca_conn_flush` (lines 421-432): one sweep over
all server buckets. -/
def flush_sweep (G : Globals) (jiffies : Nat) (st : State) : State :=
  (List.range G.ip_vs_ca_conn_tab_size).foldl (fun s idx => flush_bucket jiffies idx s) st

/-- The function `ip_vs_ca_conn_flush` (lines 416-440).  `sched n` is what
the other contexts do to the table during the call of `schedule()` that
precedes the sweep numbered `n`, `jiffies n` the time of that sweep; the
result is `none` when the counter is still non-zero after `fuel` sweeps. -/
def ip_vs_ca_conn_flush (G : Globals) (sched : Nat → State → State) (jiffies : Nat → Nat) :
    Nat → State → Option State
  | 0, _ => none
  | fuel + 1, st =>
    let st1 := flush_sweep G (jiffies fuel) st
    if st1.ip_vs_ca_conn_count ≠ 0 then
      ip_vs_ca_conn_flush G sched jiffies fuel (sched fuel st1)
    else
      some st1

/-! ## The order of hashing -/

/-- The expiry callback reaches its call `ip_vs_ca_conn_hash(cp)` (line 288):
the unhash succeeded, which takes a hashed entry referenced by the table
only, and the entry's family is not one of those freed before that line. -/
def expire_rehashes (E : Env) (c : ip_vs_ca_conn) : Prop :=
  is_hashed E c ∧ c.refcnt = 1 ∧ ¬ freed_family E c.af

/-- Every bucket of the table lists its entries from the most recently
hashed to the least recently hashed, and every stamp of a chained entry is
below the clock. -/
def stamped (tab : Nat → List Nat) (stamp : Nat → Nat) (clock : Nat) : Prop :=
  ∀ i, (tab i).Pairwise (fun a b => stamp b < stamp a) ∧ ∀ x ∈ tab i, stamp x < clock

/-- A sample mixing function standing in for the kernel `jhash_3words`. -/
def sample_jhash_3words (a b c initval : Nat) : Nat :=
  (a * 31 + b * 17 + c * 7 + initval) % 4294967296

/-- A sample mixing function standing in for the kernel `jhash` over the
sixteen address bytes. -/
def sample_jhash (a : nf_inet_addr) (_len initval : Nat) : Nat :=
  (a.w0 + a.w1 * 3 + a.w2 * 5 + a.w3 * 7 + initval) % 4294967296

/-- A sample environment: `HZ` = 1000, the HASHED flag is bit 6, IPv6
support compiled in. -/
def E0 : Env :=
  { HZ := 1000, IP_VS_CA_CONN_F_HASHED := 64, IP_VS_CA_IN := 0,
    CONFIG_IP_VS_CA_IPV6 := true,
    jhash_3words := sample_jhash_3words, jhash := sample_jhash }

/-- The sample environment without IPv6 support. -/
def E4 : Env := { E0 with CONFIG_IP_VS_CA_IPV6 := false }

/-- Sample globals: a table of 2^8 buckets. -/
def G0 : Globals :=
  { ip_vs_ca_conn_rnd := 12345, ip_vs_ca_conn_tab_bits := 8,
    ip_vs_ca_conn_tab_size := 256, ip_vs_ca_conn_tab_mask := 255,
    ct_lockarray_bits := 8, ct_lockarray_size := 256, ct_lockarray_mask := 255 }

/-- The IPv4 address `a.b.c.d` as the 32-bit word holding its bytes in
network order (on a little-endian host). -/
def ipv4 (a b c d : Nat) : nf_inet_addr :=
  { w0 := a + b * 256 + c * 65536 + d * 16777216, w1 := 0, w2 := 0, w3 := 0 }

/-- The 16-bit port in network byte order (on a little-endian host). -/
def htons (p : Nat) : Nat := (p % 256) * 256 + p / 256

/-- The protocol number of TCP. -/
def IPPROTO_TCP : Nat := 6

/-- The TCP protocol descriptor with an idle timeout of 60 seconds. -/
def pp_tcp (E : Env) : ip_vs_ca_protocol := { protocol := IPPROTO_TCP, timeout := 60 * E.HZ }

/-- The scenario's creation call: an IPv4 TCP entry with server
10.0.0.1:80, client 1.2.3.4:5555 and destination 10.0.0.2:8080, allocated at
address `p`. -/
def scenario_new (E : Env) (G : Globals) (p : Nat) (st : State) : Option Nat × State :=
  ip_vs_ca_conn_new E G (some p) AF_INET (pp_tcp E) (ipv4 10 0 0 1) (htons 80)
    (ipv4 10 0 0 2) (htons 8080) (ipv4 1 2 3 4) (htons 5555) st

/-- An entry of family `AF_INET6` in a build without IPv6 support: created
at address 1 in the empty table and put once at time 100, so that it is
hashed and only the table references it. -/
def stV6 : State :=
  ip_vs_ca_conn_put 100 1
    (ip_vs_ca_conn_new E4 G0 (some 1) AF_INET6 (pp_tcp E4) (ipv4 10 0 0 1) (htons 80)
      (ipv4 10 0 0 2) (htons 8080) (ipv4 1 2 3 4) (htons 5555) init_state).2

/-- An entry of family 0 (`AF_UNSPEC`) in a build with IPv6 support: created
at address 1 in the empty table and put once at time 100. -/
def stUnspec : State :=
  ip_vs_ca_conn_put 100 1
    (ip_vs_ca_conn_new E0 G0 (some 1) 0 (pp_tcp E0) (ipv4 10 0 0 1) (htons 80)
      (ipv4 10 0 0 2) (htons 8080) (ipv4 1 2 3 4) (htons 5555) init_state).2

/-- The sample system after the scenario's creation call at address 1: the
caller holds the reference `new` handed out. -/
def sysA : Sys :=
  { st := (scenario_new E0 G0 1 init_state).2
    held := hand_out (scenario_new E0 G0 1 init_state).1 (fun _ => 0) }

/-- The sample system after the caller has put that reference at time 100. -/
def sysB : Sys :=
  { st := ip_vs_ca_conn_put 100 1 sysA.st
    held := fun q => if q = 1 then sysA.held q - 1 else sysA.held q }

/-- The disciplined system of the `AF_INET6` entry in a build without IPv6
support, after its creation at address 1. -/
def sysV6A : Sys :=
  { st := (ip_vs_ca_conn_new E4 G0 (some 1) AF_INET6 (pp_tcp E4) (ipv4 10 0 0 1) (htons 80)
      (ipv4 10 0 0 2) (htons 8080) (ipv4 1 2 3 4) (htons 5555) init_state).2
    held := hand_out
      (ip_vs_ca_conn_new E4 G0 (some 1) AF_INET6 (pp_tcp E4) (ipv4 10 0 0 1) (htons 80)
        (ipv4 10 0 0 2) (htons 8080) (ipv4 1 2 3 4) (htons 5555) init_state).1
      (fun _ => 0) }

/-- That system after the creator has put its reference at time 100. -/
def sysV6B : Sys :=
  { st := ip_vs_ca_conn_put 100 1 sysV6A.st
    held := fun q => if q = 1 then sysV6A.held q - 1 else sysV6A.held q }

/-- That system after the expiry callback has run at time 60100. -/
def sysV6C : Sys :=
  { st := ip_vs_ca_conn_expire E4 G0 60100 1 sysV6B.st, held := sysV6B.held }

/-- A table with one IPv4 TCP entry at address 1 whose server key
10.0.0.1:80 and client key 1.2.3.4:42752 fall into bucket (and lock shard)
153 of their tables. -/
def stAlias : State :=
  (ip_vs_ca_conn_new E0 G0 (some 1) AF_INET (pp_tcp E0) (ipv4 10 0 0 1) (htons 80)
    (ipv4 10 0 0 2) (htons 8080) (ipv4 1 2 3 4) (htons 42752) init_state).2

/-- The same entry initialised and not yet hashed. -/
def stAliasPre : State :=
  new_pre_hash E0 1 AF_INET (pp_tcp E0) (ipv4 10 0 0 1) (htons 80)
    (ipv4 10 0 0 2) (htons 8080) (ipv4 1 2 3 4) (htons 42752) init_state

/-- Sample globals before initialisation, with table-size exponent 8 and
the compiled-in lock array of 2^16 locks. -/
def G_uninit : Globals :=
  { ip_vs_ca_conn_rnd := 12345, ip_vs_ca_conn_tab_bits := 8,
    ip_vs_ca_conn_tab_size := 1048576, ip_vs_ca_conn_tab_mask := 1048575,
    ct_lockarray_bits := 16, ct_lockarray_size := 65536, ct_lockarray_mask := 65535 }

theorem and_not_land_self (x m : Nat) : and_not x m &&& m = 0 := by
  apply Nat.eq_of_testBit_eq
  intro i
  simp only [and_not, Nat.testBit_and, Nat.testBit_xor, Nat.zero_testBit]
  cases x.testBit i <;> cases m.testBit i <;> rfl

theorem lor_land_self (x m : Nat) : (x ||| m) &&& m = m := by
  apply Nat.eq_of_testBit_eq
  intro i
  simp only [Nat.testBit_and, Nat.testBit_or]
  cases x.testBit i <;> cases m.testBit i <;> rfl

theorem not_mem_list_del (entry : Nat) (tab : Nat → List Nat) (i : Nat) :
    entry ∉ list_del entry tab i := by
  simp [list_del]

theorem mem_list_del_iff (entry q : Nat) (tab : Nat → List Nat) (i : Nat) :
    q ∈ list_del entry tab i ↔ q ∈ tab i ∧ q ≠ entry := by
  simp [list_del]

theorem mem_list_add_iff (new head q : Nat) (tab : Nat → List Nat) (i : Nat) :
    q ∈ list_add new head tab i ↔ (i = head ∧ q = new) ∨ q ∈ tab i := by
  unfold list_add
  by_cases h : i = head <;> simp [h]

theorem count_list_add_of_ne {new q : Nat} (hq : q ≠ new) (head : Nat) (tab : Nat → List Nat)
    (i : Nat) : (list_add new head tab i).count q = (tab i).count q := by
  unfold list_add
  by_cases h : i = head
  · simp [h, List.count_cons, Ne.symm hq]
  · simp [h]

theorem count_list_del_of_ne {entry q : Nat} (hq : q ≠ entry) (tab : Nat → List Nat)
    (i : Nat) : (list_del entry tab i).count q = (tab i).count q := by
  unfold list_del
  induction tab i with
  | nil => rfl
  | cons a l ih =>
    by_cases ha : a = entry
    · subst ha
      simp [List.filter_cons, List.count_cons, ih, Ne.symm hq]
    · simp [List.filter_cons, List.count_cons, ih, ha]

theorem linked_at_list_add_of_ne {new q : Nat} (hq : q ≠ new) (head : Nat)
    (tab : Nat → List Nat) (i : Nat) :
    linked_at (list_add new head tab) i q ↔ linked_at tab i q := by
  simp [linked_at, count_list_add_of_ne hq, mem_list_add_iff, hq]

theorem unlinked_list_add_of_ne {new q : Nat} (hq : q ≠ new) (head : Nat)
    (tab : Nat → List Nat) :
    unlinked (list_add new head tab) q ↔ unlinked tab q := by
  simp [unlinked, mem_list_add_iff, hq]

theorem linked_at_list_add_self {new : Nat} {tab : Nat → List Nat} (h : unlinked tab new)
    (head : Nat) : linked_at (list_add new head tab) head new := by
  constructor
  · simp [list_add, List.count_cons, List.count_eq_zero_of_not_mem (h head)]
  · intro j hj
    simp [mem_list_add_iff, hj, h j]

theorem linked_at_list_del_of_ne {entry q : Nat} (hq : q ≠ entry) (tab : Nat → List Nat)
    (i : Nat) : linked_at (list_del entry tab) i q ↔ linked_at tab i q := by
  simp [linked_at, count_list_del_of_ne hq, mem_list_del_iff, hq]

theorem unlinked_list_del_of_ne {entry q : Nat} (hq : q ≠ entry) (tab : Nat → List Nat) :
    unlinked (list_del entry tab) q ↔ unlinked tab q := by
  simp [unlinked, mem_list_del_iff, hq]

theorem unlinked_list_del_self (entry : Nat) (tab : Nat → List Nat) :
    unlinked (list_del entry tab) entry :=
  fun j => not_mem_list_del entry tab j

theorem linked_at_mem {tab : Nat → List Nat} {i cp : Nat} (h : linked_at tab i cp) :
    cp ∈ tab i := by
  have := h.1
  exact List.count_pos_iff.mp (by omega)

theorem shash_congr (E : Env) (G : Globals) {c c1 : ip_vs_ca_conn}
    (h : conn_key c1 = conn_key c) : shash E G c1 = shash E G c := by
  simp only [conn_key, Prod.mk.injEq] at h
  obtain ⟨h1, h2, h3, h4, -, -⟩ := h
  simp [shash, h1, h2, h3, h4]

theorem chash_congr (E : Env) (G : Globals) {c c1 : ip_vs_ca_conn}
    (h : conn_key c1 = conn_key c) : chash E G c1 = chash E G c := by
  simp only [conn_key, Prod.mk.injEq] at h
  obtain ⟨h1, h2, -, -, h5, h6⟩ := h
  simp [chash, h1, h2, h5, h6]

theorem TableInv.t_transfer {E : Env} {G : Globals} {st st1 : State} (inv : TableInv E G st)
    (hs : st1.ip_vs_ca_conn_tab_s = st.ip_vs_ca_conn_tab_s)
    (hc : st1.ip_vs_ca_conn_tab_c = st.ip_vs_ca_conn_tab_c)
    (h : ∀ q,
      (conn_key (st1.mem q) = conn_key (st.mem q) ∧ (st1.mem q).flags = (st.mem q).flags ∧
        st1.allocated q = st.allocated q ∧
        ((st1.mem q).timer.pending = true →
          (st.mem q).timer.pending = true ∨ st.allocated q = true)) ∨
      ((st.allocated q = false ∨ ¬ is_hashed E (st.mem q)) ∧
        (st1.allocated q = false ∨ ¬ is_hashed E (st1.mem q)) ∧
        ((st1.mem q).timer.pending = true → st1.allocated q = true))) :
    TableInv E G st1 := by
  constructor
  · intro cp ha hh
    rcases h cp with ⟨hk, hf, hal, -⟩ | ⟨-, h2, -⟩
    · rw [hs, hc, shash_congr E G hk, chash_congr E G hk]
      refine inv.hashed_linked cp (hal ▸ ha) ?_
      unfold is_hashed at hh ⊢
      rwa [hf] at hh
    · rcases h2 with h2 | h2
      · rw [ha] at h2; cases h2
      · exact absurd hh h2
  · intro cp hcp
    rw [hs, hc]
    rcases h cp with ⟨-, hf, hal, -⟩ | ⟨h1, -, -⟩
    · refine inv.other_unlinked cp ?_
      unfold is_hashed at hcp ⊢
      rwa [hf, hal] at hcp
    · exact inv.other_unlinked cp h1
  · intro cp hp
    rcases h cp with ⟨-, -, hal, hpp⟩ | ⟨-, -, h3⟩
    · rw [hal]
      rcases hpp hp with h1 | h1
      · exact inv.timer_alloc cp h1
      · exact h1
    · exact h3 hp

/-! ## The operations in closed form -/

/-- The state after a successful `ip_vs_ca_conn_hash`. -/
theorem hash_of_not_hashed {E : Env} (G : Globals) {cp : Nat} {st : State}
    (h : (st.mem cp).flags &&& E.IP_VS_CA_CONN_F_HASHED = 0) :
    ip_vs_ca_conn_hash E G cp st =
      (1, { st with
        mem := fun p => if p = cp then
            { st.mem cp with
              flags := (st.mem cp).flags ||| E.IP_VS_CA_CONN_F_HASHED
              refcnt := (st.mem cp).refcnt + 1 }
          else st.mem p
        ip_vs_ca_conn_tab_s := list_add cp (shash E G (st.mem cp)) st.ip_vs_ca_conn_tab_s
        ip_vs_ca_conn_tab_c := list_add cp (chash E G (st.mem cp)) st.ip_vs_ca_conn_tab_c }) := by
  unfold ip_vs_ca_conn_hash __ip_vs_ca_conn_hash
  rw [if_pos h]
  refine Prod.ext rfl (State.ext ?_ rfl rfl rfl rfl rfl rfl)
  funext p
  by_cases hp : p = cp
  · subst hp; simp [atomic_inc_refcnt, State.upd]
  · simp [atomic_inc_refcnt, State.upd, hp]

theorem hash_of_hashed {E : Env} (G : Globals) {cp : Nat} {st : State}
    (h : (st.mem cp).flags &&& E.IP_VS_CA_CONN_F_HASHED ≠ 0) :
    ip_vs_ca_conn_hash E G cp st = (0, st) := by
  unfold ip_vs_ca_conn_hash __ip_vs_ca_conn_hash
  rw [if_neg h]

/-- The state after a successful `ip_vs_ca_conn_unhash`. -/
theorem unhash_of_ready {E : Env} (G : Globals) {cp : Nat} {st : State}
    (h : (st.mem cp).flags &&& E.IP_VS_CA_CONN_F_HASHED ≠ 0 ∧ (st.mem cp).refcnt = 2) :
    ip_vs_ca_conn_unhash E G cp st =
      (1, { st with
        mem := fun p => if p = cp then
            { st.mem cp with
              flags := and_not (st.mem cp).flags E.IP_VS_CA_CONN_F_HASHED
              refcnt := (st.mem cp).refcnt - 1 }
          else st.mem p
        ip_vs_ca_conn_tab_s := list_del cp st.ip_vs_ca_conn_tab_s
        ip_vs_ca_conn_tab_c := list_del cp st.ip_vs_ca_conn_tab_c }) := by
  unfold ip_vs_ca_conn_unhash
  rw [if_pos h]
  refine Prod.ext rfl (State.ext ?_ rfl rfl rfl rfl rfl rfl)
  funext p
  by_cases hp : p = cp
  · subst hp; simp [atomic_dec_refcnt, State.upd]
  · simp [atomic_dec_refcnt, State.upd, hp]

theorem unhash_of_not_ready {E : Env} (G : Globals) {cp : Nat} {st : State}
    (h : ¬ ((st.mem cp).flags &&& E.IP_VS_CA_CONN_F_HASHED ≠ 0 ∧ (st.mem cp).refcnt = 2)) :
    ip_vs_ca_conn_unhash E G cp st = (0, st) := by
  unfold ip_vs_ca_conn_unhash
  rw [if_neg h]

theorem TableInv.t_hash {E : Env} {G : Globals} {st : State}
    (hF : E.IP_VS_CA_CONN_F_HASHED ≠ 0) (inv : TableInv E G st) {cp : Nat}
    (halloc : st.allocated cp = true) : TableInv E G (ip_vs_ca_conn_hash E G cp st).2 := by
  by_cases h : (st.mem cp).flags &&& E.IP_VS_CA_CONN_F_HASHED = 0
  · rw [hash_of_not_hashed G h]
    have hun := inv.other_unlinked cp (Or.inr (by simp [is_hashed, h]))
    constructor
    · intro q ha hh
      by_cases hq : q = cp
      · subst hq
        simp only [if_pos rfl]
        exact ⟨linked_at_list_add_self hun.1 _, linked_at_list_add_self hun.2 _⟩
      · simp only [if_neg hq] at hh ⊢
        rw [linked_at_list_add_of_ne hq, linked_at_list_add_of_ne hq]
        exact inv.hashed_linked q ha hh
    · intro q hq
      by_cases hqc : q = cp
      · subst hqc
        exfalso
        rcases hq with hq | hq
        · simp [halloc] at hq
        · apply hq
          simp [is_hashed, lor_land_self, hF]
      · simp only [if_neg hqc] at hq
        dsimp only
        rw [unlinked_list_add_of_ne hqc, unlinked_list_add_of_ne hqc]
        exact inv.other_unlinked q hq
    · intro q hp
      by_cases hqc : q = cp
      · subst hqc; exact halloc
      · simp only [if_neg hqc] at hp
        exact inv.timer_alloc q hp
  · rw [hash_of_hashed G h]
    exact inv

theorem TableInv.t_unhash {E : Env} {G : Globals} {st : State}
    (inv : TableInv E G st) (cp : Nat) : TableInv E G (ip_vs_ca_conn_unhash E G cp st).2 := by
  by_cases h : (st.mem cp).flags &&& E.IP_VS_CA_CONN_F_HASHED ≠ 0 ∧ (st.mem cp).refcnt = 2
  · rw [unhash_of_ready G h]
    constructor
    · intro q ha hh
      by_cases hq : q = cp
      · subst hq
        exfalso
        simp [is_hashed, and_not_land_self] at hh
      · simp only [if_neg hq] at hh ⊢
        rw [linked_at_list_del_of_ne hq, linked_at_list_del_of_ne hq]
        exact inv.hashed_linked q ha hh
    · intro q hq
      by_cases hqc : q = cp
      · subst hqc
        exact ⟨unlinked_list_del_self _ _, unlinked_list_del_self _ _⟩
      · simp only [if_neg hqc] at hq
        dsimp only
        rw [unlinked_list_del_of_ne hqc, unlinked_list_del_of_ne hqc]
        exact inv.other_unlinked q hq
    · intro q hp
      by_cases hqc : q = cp
      · subst hqc
        simp only [if_pos rfl] at hp
        exact inv.timer_alloc q hp
      · simp only [if_neg hqc] at hp
        exact inv.timer_alloc q hp
  · rw [unhash_of_not_ready G h]
    exact inv

theorem put_eq (jiffies cp : Nat) (st : State) :
    ip_vs_ca_conn_put jiffies cp st =
      st.upd cp (fun c =>
        { c with timer := mod_timer c.timer (jiffies + c.timeout), refcnt := c.refcnt - 1 }) := by
  unfold ip_vs_ca_conn_put __ip_vs_ca_conn_put atomic_dec_refcnt State.upd
  refine State.ext ?_ rfl rfl rfl rfl rfl rfl
  funext p
  by_cases hp : p = cp <;> simp [hp]

theorem del_timer_of_not_pending {t : timer_list} (h : ¬ t.pending = true) :
    del_timer t = t := by
  cases t
  simp_all [del_timer]

/-- The expiry callback when the entry cannot be unhashed: only the timeout
and the timer change. -/
theorem expire_of_not_ready {E : Env} (G : Globals) (jiffies : Nat) {cp : Nat} {st : State}
    (h : ¬ ((st.mem cp).flags &&& E.IP_VS_CA_CONN_F_HASHED ≠ 0 ∧ (st.mem cp).refcnt = 1)) :
    ip_vs_ca_conn_expire E G jiffies cp st =
      st.upd cp (fun c =>
        { c with timeout := 60 * E.HZ, timer := mod_timer c.timer (jiffies + 60 * E.HZ) }) := by
  have h2 : ¬ (((atomic_inc_refcnt cp (st.upd cp
      (fun c => { c with timeout := 60 * E.HZ }))).mem cp).flags &&& E.IP_VS_CA_CONN_F_HASHED ≠ 0 ∧
      ((atomic_inc_refcnt cp (st.upd cp
      (fun c => { c with timeout := 60 * E.HZ }))).mem cp).refcnt = 2) := by
    intro hc
    apply h
    simp only [atomic_inc_refcnt, State.upd, if_pos] at hc
    exact ⟨hc.1, by omega⟩
  unfold ip_vs_ca_conn_expire
  simp only [unhash_of_not_ready G h2, if_pos, put_eq]
  refine State.ext ?_ rfl rfl rfl rfl rfl rfl
  funext p
  by_cases hp : p = cp
  · subst hp; simp [atomic_inc_refcnt, State.upd]
  · simp [atomic_inc_refcnt, State.upd, hp]

theorem expire_unfold (E : Env) (G : Globals) (jiffies cp : Nat) (st : State) :
    ip_vs_ca_conn_expire E G jiffies cp st =
      if (ip_vs_ca_conn_unhash E G cp (atomic_inc_refcnt cp
          (st.upd cp (fun c => { c with timeout := 60 * E.HZ })))).1 = 0 then
        ip_vs_ca_conn_put jiffies cp (ip_vs_ca_conn_unhash E G cp (atomic_inc_refcnt cp
          (st.upd cp (fun c => { c with timeout := 60 * E.HZ })))).2
      else
        expire_unhashed E G jiffies cp (ip_vs_ca_conn_unhash E G cp (atomic_inc_refcnt cp
          (st.upd cp (fun c => { c with timeout := 60 * E.HZ })))).2 := rfl

theorem expire_unhashed_freed {E : Env} (G : Globals) (jiffies : Nat) {cp : Nat} {s : State}
    (hr : (s.mem cp).refcnt = 1) (haf : freed_family E (s.mem cp).af) :
    expire_unhashed E G jiffies cp s =
      kmem_cache_free cp
        ({ s with ip_vs_ca_conn_count := s.ip_vs_ca_conn_count - 1 }.upd cp
          (fun c => { c with timer := del_timer c.timer })) := by
  unfold expire_unhashed
  rw [if_pos hr]
  have e3 : (if (s.mem cp).timer.pending = true then
        s.upd cp (fun c => { c with timer := del_timer c.timer }) else s) =
      s.upd cp (fun c => { c with timer := del_timer c.timer }) := by
    by_cases hpend : (s.mem cp).timer.pending = true
    · rw [if_pos hpend]
    · rw [if_neg hpend]
      refine State.ext ?_ rfl rfl rfl rfl rfl rfl
      funext p
      by_cases hp : p = cp
      · subst hp; simp [State.upd, del_timer_of_not_pending hpend]
      · simp [State.upd, hp]
  simp only [e3]
  have ha : ((s.upd cp (fun c => { c with timer := del_timer c.timer })).mem cp).af =
      (s.mem cp).af := by simp [State.upd]
  rcases haf with h1 | h1
  · rw [if_pos (by simpa [State.upd] using h1)]
    rfl
  · by_cases h0 : (s.mem cp).af = AF_INET
    · rw [if_pos (by simpa [State.upd] using h0)]
      rfl
    · rw [if_neg (by simpa [State.upd] using h0), if_pos (by simpa [State.upd] using h1)]
      rfl

theorem expire_unhashed_kept {E : Env} (G : Globals) (jiffies : Nat) {cp : Nat} {s : State}
    (hr : (s.mem cp).refcnt = 1) (haf : ¬ freed_family E (s.mem cp).af) :
    expire_unhashed E G jiffies cp s =
      ip_vs_ca_conn_put jiffies cp (ip_vs_ca_conn_hash E G cp
        ({ s with ip_vs_ca_conn_count := s.ip_vs_ca_conn_count - 1 }.upd cp
          (fun c => { c with timer := del_timer c.timer }))).2 := by
  unfold expire_unhashed
  rw [if_pos hr]
  have e3 : (if (s.mem cp).timer.pending = true then
        s.upd cp (fun c => { c with timer := del_timer c.timer }) else s) =
      s.upd cp (fun c => { c with timer := del_timer c.timer }) := by
    by_cases hpend : (s.mem cp).timer.pending = true
    · rw [if_pos hpend]
    · rw [if_neg hpend]
      refine State.ext ?_ rfl rfl rfl rfl rfl rfl
      funext p
      by_cases hp : p = cp
      · subst hp; simp [State.upd, del_timer_of_not_pending hpend]
      · simp [State.upd, hp]
  simp only [e3]
  have h0 : ¬ (s.mem cp).af = AF_INET := fun h => haf (Or.inl h)
  have h1 : ¬ (E.CONFIG_IP_VS_CA_IPV6 = true ∧ (s.mem cp).af = AF_INET6) :=
    fun h => haf (Or.inr h)
  rw [if_neg (by simpa [State.upd] using h0), if_neg (by simpa [State.upd] using h1)]
  rfl

@[simp] theorem upd_mem_self (st : State) (cp : Nat) (f : ip_vs_ca_conn → ip_vs_ca_conn) :
    (st.upd cp f).mem cp = f (st.mem cp) := by simp [State.upd]

theorem upd_mem_of_ne (st : State) {cp p : Nat} (f : ip_vs_ca_conn → ip_vs_ca_conn)
    (h : p ≠ cp) : (st.upd cp f).mem p = st.mem p := by simp [State.upd, h]

@[simp] theorem upd_allocated (st : State) (cp : Nat) (f : ip_vs_ca_conn → ip_vs_ca_conn) :
    (st.upd cp f).allocated = st.allocated := rfl

@[simp] theorem upd_tab_s (st : State) (cp : Nat) (f : ip_vs_ca_conn → ip_vs_ca_conn) :
    (st.upd cp f).ip_vs_ca_conn_tab_s = st.ip_vs_ca_conn_tab_s := rfl

@[simp] theorem upd_tab_c (st : State) (cp : Nat) (f : ip_vs_ca_conn → ip_vs_ca_conn) :
    (st.upd cp f).ip_vs_ca_conn_tab_c = st.ip_vs_ca_conn_tab_c := rfl

@[simp] theorem upd_count (st : State) (cp : Nat) (f : ip_vs_ca_conn → ip_vs_ca_conn) :
    (st.upd cp f).ip_vs_ca_conn_count = st.ip_vs_ca_conn_count := rfl

@[simp] theorem upd_kmem_frees (st : State) (cp : Nat) (f : ip_vs_ca_conn → ip_vs_ca_conn) :
    (st.upd cp f).kmem_frees = st.kmem_frees := rfl

@[simp] theorem upd_kmem_allocs (st : State) (cp : Nat) (f : ip_vs_ca_conn → ip_vs_ca_conn) :
    (st.upd cp f).kmem_allocs = st.kmem_allocs := rfl

theorem expire_ready_pre {E : Env} {cp : Nat} {st : State}
    (h : (st.mem cp).flags &&& E.IP_VS_CA_CONN_F_HASHED ≠ 0 ∧ (st.mem cp).refcnt = 1) :
    ((atomic_inc_refcnt cp (st.upd cp
      (fun c => { c with timeout := 60 * E.HZ }))).mem cp).flags &&& E.IP_VS_CA_CONN_F_HASHED ≠ 0 ∧
      ((atomic_inc_refcnt cp (st.upd cp
      (fun c => { c with timeout := 60 * E.HZ }))).mem cp).refcnt = 2 := by
  simp only [atomic_inc_refcnt, upd_mem_self]
  exact ⟨h.1, by omega⟩

/-- The expiry callback on a hashed entry that only the table references,
of a family it frees: the entry is unhashed and freed, the live-entry counter
drops by one. -/
theorem expire_of_ready_freed {E : Env} (G : Globals) (jiffies : Nat) {cp : Nat} {st : State}
    (h : (st.mem cp).flags &&& E.IP_VS_CA_CONN_F_HASHED ≠ 0 ∧ (st.mem cp).refcnt = 1)
    (haf : freed_family E (st.mem cp).af) :
    ip_vs_ca_conn_expire E G jiffies cp st =
      kmem_cache_free cp
        ({ st with
            ip_vs_ca_conn_tab_s := list_del cp st.ip_vs_ca_conn_tab_s
            ip_vs_ca_conn_tab_c := list_del cp st.ip_vs_ca_conn_tab_c
            ip_vs_ca_conn_count := st.ip_vs_ca_conn_count - 1 }.upd cp
          (fun c => { c with
            timeout := 60 * E.HZ
            flags := and_not c.flags E.IP_VS_CA_CONN_F_HASHED
            refcnt := 1
            timer := del_timer c.timer })) := by
  rw [expire_unfold, unhash_of_ready G (expire_ready_pre h)]
  simp only []
  rw [if_neg one_ne_zero, expire_unhashed_freed G jiffies
    (by simp [atomic_inc_refcnt]; omega) (by simpa [atomic_inc_refcnt] using haf)]
  refine State.ext ?_ rfl rfl rfl rfl rfl rfl
  funext p
  by_cases hp : p = cp
  · subst hp
    simp [atomic_inc_refcnt, kmem_cache_free, State.upd]
    omega
  · simp [atomic_inc_refcnt, kmem_cache_free, State.upd, hp]

/-- The expiry callback on a hashed entry that only the table references,
of a family it does not free: the live-entry counter drops by one, the entry
is hashed back in front of its buckets and its timer re-armed. -/
theorem expire_of_ready_kept {E : Env} (G : Globals) (jiffies : Nat) {cp : Nat} {st : State}
    (h : (st.mem cp).flags &&& E.IP_VS_CA_CONN_F_HASHED ≠ 0 ∧ (st.mem cp).refcnt = 1)
    (haf : ¬ freed_family E (st.mem cp).af) :
    ip_vs_ca_conn_expire E G jiffies cp st =
      { st with
          ip_vs_ca_conn_tab_s :=
            list_add cp (shash E G (st.mem cp)) (list_del cp st.ip_vs_ca_conn_tab_s)
          ip_vs_ca_conn_tab_c :=
            list_add cp (chash E G (st.mem cp)) (list_del cp st.ip_vs_ca_conn_tab_c)
          ip_vs_ca_conn_count := st.ip_vs_ca_conn_count - 1 }.upd cp
        (fun c => { c with
          timeout := 60 * E.HZ
          flags := and_not c.flags E.IP_VS_CA_CONN_F_HASHED ||| E.IP_VS_CA_CONN_F_HASHED
          refcnt := 1
          timer := mod_timer c.timer (jiffies + 60 * E.HZ) }) := by
  rw [expire_unfold, unhash_of_ready G (expire_ready_pre h)]
  simp only []
  rw [if_neg one_ne_zero, expire_unhashed_kept G jiffies
    (by simp [atomic_inc_refcnt]; omega) (by simpa [atomic_inc_refcnt] using haf),
    hash_of_not_hashed G (by simp [atomic_inc_refcnt, and_not_land_self]), put_eq]
  refine State.ext ?_ rfl rfl rfl ?_ ?_ rfl
  · funext p
    by_cases hp : p = cp
    · subst hp
      simp [atomic_inc_refcnt, State.upd, mod_timer, del_timer]
      omega
    · simp [atomic_inc_refcnt, State.upd, hp]
  · simp [atomic_inc_refcnt, State.upd, shash]
  · simp [atomic_inc_refcnt, State.upd, chash]

theorem TableInv.t_upd {E : Env} {G : Globals} {st : State} (inv : TableInv E G st)
    (cp : Nat) (f : ip_vs_ca_conn → ip_vs_ca_conn)
    (hk : conn_key (f (st.mem cp)) = conn_key (st.mem cp))
    (hf : (f (st.mem cp)).flags = (st.mem cp).flags)
    (hp : (f (st.mem cp)).timer.pending = true →
      (st.mem cp).timer.pending = true ∨ st.allocated cp = true) :
    TableInv E G (st.upd cp f) := by
  refine inv.t_transfer rfl rfl (fun q => Or.inl ?_)
  by_cases hq : q = cp
  · subst hq
    rw [upd_mem_self]
    exact ⟨hk, hf, rfl, hp⟩
  · rw [upd_mem_of_ne _ _ hq]
    exact ⟨rfl, rfl, rfl, Or.inl⟩

theorem TableInv.t_set_count {E : Env} {G : Globals} {st : State} (inv : TableInv E G st)
    (n : Int) : TableInv E G { st with ip_vs_ca_conn_count := n } :=
  inv.t_transfer rfl rfl (fun _ => Or.inl ⟨rfl, rfl, rfl, Or.inl⟩)

theorem TableInv.t_free {E : Env} {G : Globals} {st : State} (inv : TableInv E G st)
    {cp : Nat} (hh : ¬ is_hashed E (st.mem cp)) (hp : ¬ (st.mem cp).timer.pending = true) :
    TableInv E G (kmem_cache_free cp st) := by
  refine inv.t_transfer rfl rfl (fun q => ?_)
  by_cases hq : q = cp
  · subst hq
    exact Or.inr ⟨Or.inr hh, Or.inl (by simp [kmem_cache_free]),
      fun h => absurd h hp⟩
  · exact Or.inl ⟨rfl, rfl, by simp [kmem_cache_free, hq], Or.inl⟩

theorem TableInv.t_inc {E : Env} {G : Globals} {st : State} (inv : TableInv E G st)
    (cp : Nat) : TableInv E G (atomic_inc_refcnt cp st) :=
  inv.t_upd cp _ rfl rfl Or.inl

theorem TableInv.t_put {E : Env} {G : Globals} {st : State} (inv : TableInv E G st)
    (jiffies : Nat) {cp : Nat} (halloc : st.allocated cp = true) :
    TableInv E G (ip_vs_ca_conn_put jiffies cp st) := by
  rw [put_eq]
  exact inv.t_upd cp _ rfl rfl (fun _ => Or.inr halloc)

theorem hash_allocated (E : Env) (G : Globals) (cp : Nat) (st : State) :
    (ip_vs_ca_conn_hash E G cp st).2.allocated = st.allocated := by
  by_cases h : (st.mem cp).flags &&& E.IP_VS_CA_CONN_F_HASHED = 0
  · rw [hash_of_not_hashed G h]
  · rw [hash_of_hashed G h]

theorem unhash_allocated (E : Env) (G : Globals) (cp : Nat) (st : State) :
    (ip_vs_ca_conn_unhash E G cp st).2.allocated = st.allocated := by
  by_cases h : (st.mem cp).flags &&& E.IP_VS_CA_CONN_F_HASHED ≠ 0 ∧ (st.mem cp).refcnt = 2
  · rw [unhash_of_ready G h]
  · rw [unhash_of_not_ready G h]

theorem unhash_clears {E : Env} {G : Globals} {cp : Nat} {st : State}
    (h : (ip_vs_ca_conn_unhash E G cp st).1 ≠ 0) :
    ¬ is_hashed E ((ip_vs_ca_conn_unhash E G cp st).2.mem cp) := by
  by_cases h2 : (st.mem cp).flags &&& E.IP_VS_CA_CONN_F_HASHED ≠ 0 ∧ (st.mem cp).refcnt = 2
  · rw [unhash_of_ready G h2]
    simp [is_hashed, and_not_land_self]
  · rw [unhash_of_not_ready G h2] at h
    exact absurd rfl h

theorem TableInv.t_expire_unhashed {E : Env} {G : Globals} {s : State}
    (hF : E.IP_VS_CA_CONN_F_HASHED ≠ 0) (inv : TableInv E G s) (jiffies : Nat) {cp : Nat}
    (halloc : s.allocated cp = true) (hh : ¬ is_hashed E (s.mem cp)) :
    TableInv E G (expire_unhashed E G jiffies cp s) := by
  have inv4 : TableInv E G
      ({ s with ip_vs_ca_conn_count := s.ip_vs_ca_conn_count - 1 }.upd cp
        (fun c => { c with timer := del_timer c.timer })) :=
    (inv.t_set_count _).t_upd cp _ rfl rfl (fun h => by simp [del_timer] at h)
  by_cases hr : (s.mem cp).refcnt = 1
  · by_cases haf : freed_family E (s.mem cp).af
    · rw [expire_unhashed_freed G jiffies hr haf]
      exact inv4.t_free (by simpa [is_hashed] using hh) (by simp [del_timer])
    · rw [expire_unhashed_kept G jiffies hr haf]
      refine TableInv.t_put (inv4.t_hash hF halloc) jiffies ?_
      rw [hash_allocated]
      exact halloc
  · unfold CaConn.expire_unhashed
    rw [if_neg hr]
    refine TableInv.t_put (inv.t_hash hF halloc) jiffies ?_
    rw [hash_allocated]
    exact halloc

theorem TableInv.t_expire {E : Env} {G : Globals} {st : State}
    (hF : E.IP_VS_CA_CONN_F_HASHED ≠ 0) (inv : TableInv E G st) (jiffies : Nat) {cp : Nat}
    (h : st.allocated cp = true ∨ (st.mem cp).timer.pending = true) :
    TableInv E G (ip_vs_ca_conn_expire E G jiffies cp st) := by
  have halloc : st.allocated cp = true := h.elim id (inv.timer_alloc cp)
  have inv2 : TableInv E G (atomic_inc_refcnt cp
      (st.upd cp (fun c => { c with timeout := 60 * E.HZ }))) :=
    (inv.t_upd cp _ rfl rfl Or.inl).t_inc cp
  have inv3 := inv2.t_unhash cp
  have ha3 : (ip_vs_ca_conn_unhash E G cp (atomic_inc_refcnt cp
      (st.upd cp (fun c => { c with timeout := 60 * E.HZ })))).2.allocated cp = true := by
    rw [unhash_allocated]
    exact halloc
  rw [expire_unfold]
  split
  · exact inv3.t_put jiffies ha3
  · rename_i hne
    exact inv3.t_expire_unhashed hF jiffies ha3 (unhash_clears hne)

theorem get_state (E : Env) (G : Globals) (af : Int) (protocol : Nat)
    (addr : nf_inet_addr) (port : Nat) (dir : Int) (st : State) :
    (ip_vs_ca_conn_get E G af protocol addr port dir st).2 =
      match (ip_vs_ca_conn_get E G af protocol addr port dir st).1 with
      | some cp => atomic_inc_refcnt cp st
      | none => st := by
  unfold ip_vs_ca_conn_get
  simp only []
  split <;> split <;> simp_all

theorem TableInv.t_get {E : Env} {G : Globals} {st : State} (inv : TableInv E G st)
    (af : Int) (protocol : Nat) (addr : nf_inet_addr) (port : Nat) (dir : Int) :
    TableInv E G (ip_vs_ca_conn_get E G af protocol addr port dir st).2 := by
  rw [get_state]
  split
  · exact inv.t_inc _
  · exact inv

theorem TableInv.t_init (E : Env) (G : Globals) : TableInv E G init_state := by
  constructor
  · intro cp h
    simp [init_state] at h
  · intro cp _
    simp [init_state, unlinked]
  · intro cp h
    simp [init_state, zero_conn, zero_timer] at h

theorem new_eq (E : Env) (G : Globals) (cp : Nat) (af : Int) (pp : ip_vs_ca_protocol)
    (saddr : nf_inet_addr) (sport : Nat) (daddr : nf_inet_addr) (dport : Nat)
    (caddr : nf_inet_addr) (cport : Nat) (st : State) :
    ip_vs_ca_conn_new E G (some cp) af pp saddr sport daddr dport caddr cport st =
      (some cp, (ip_vs_ca_conn_hash E G cp
        (new_pre_hash E cp af pp saddr sport daddr dport caddr cport st)).2) := by
  unfold ip_vs_ca_conn_new
  simp only []
  congr 3
  refine State.ext ?_ rfl rfl rfl rfl rfl rfl
  funext p
  by_cases hp : p = cp
  · subst hp
    simp [State.upd, kmem_cache_zalloc, new_pre_hash, new_conn, zero_conn]
  · simp [State.upd, kmem_cache_zalloc, new_pre_hash, hp]

theorem new_none (E : Env) (G : Globals) (af : Int) (pp : ip_vs_ca_protocol)
    (saddr : nf_inet_addr) (sport : Nat) (daddr : nf_inet_addr) (dport : Nat)
    (caddr : nf_inet_addr) (cport : Nat) (st : State) :
    ip_vs_ca_conn_new E G none af pp saddr sport daddr dport caddr cport st = (none, st) :=
  rfl

theorem new_pre_hash_not_hashed (E : Env) (cp : Nat) (af : Int) (pp : ip_vs_ca_protocol)
    (saddr : nf_inet_addr) (sport : Nat) (daddr : nf_inet_addr) (dport : Nat)
    (caddr : nf_inet_addr) (cport : Nat) (st : State) :
    ((new_pre_hash E cp af pp saddr sport daddr dport caddr cport st).mem cp).flags &&&
      E.IP_VS_CA_CONN_F_HASHED = 0 := by
  simp [new_pre_hash, new_conn]

theorem TableInv.t_new_pre_hash {E : Env} {G : Globals} {st : State} (inv : TableInv E G st)
    {cp : Nat} (hfresh : st.allocated cp = false) (af : Int) (pp : ip_vs_ca_protocol)
    (saddr : nf_inet_addr) (sport : Nat) (daddr : nf_inet_addr) (dport : Nat)
    (caddr : nf_inet_addr) (cport : Nat) :
    TableInv E G (new_pre_hash E cp af pp saddr sport daddr dport caddr cport st) := by
  refine inv.t_transfer rfl rfl (fun q => ?_)
  by_cases hq : q = cp
  · subst hq
    refine Or.inr ⟨Or.inl hfresh, Or.inr ?_, fun _ => by simp [CaConn.new_pre_hash]⟩
    simp [is_hashed, CaConn.new_pre_hash, new_conn]
  · exact Or.inl ⟨by simp [CaConn.new_pre_hash, hq], by simp [CaConn.new_pre_hash, hq],
      by simp [CaConn.new_pre_hash, hq], fun h => Or.inl (by simpa [CaConn.new_pre_hash, hq] using h)⟩

theorem TableInv.t_new {E : Env} {G : Globals} {st : State}
    (hF : E.IP_VS_CA_CONN_F_HASHED ≠ 0) (inv : TableInv E G st)
    (alloc : Option Nat) (hfresh : ∀ p, alloc = some p → st.allocated p = false)
    (af : Int) (pp : ip_vs_ca_protocol)
    (saddr : nf_inet_addr) (sport : Nat) (daddr : nf_inet_addr) (dport : Nat)
    (caddr : nf_inet_addr) (cport : Nat) :
    TableInv E G
      (ip_vs_ca_conn_new E G alloc af pp saddr sport daddr dport caddr cport st).2 := by
  cases alloc with
  | none => exact inv
  | some cp =>
    rw [new_eq]
    exact (inv.t_new_pre_hash (hfresh cp rfl) af pp saddr sport daddr dport caddr cport).t_hash hF
      (by simp [CaConn.new_pre_hash])

theorem Step.step_inv {E : Env} {G : Globals} (hF : E.IP_VS_CA_CONN_F_HASHED ≠ 0)
    {st st1 : State} (inv : TableInv E G st) (h : Step E G st st1) : TableInv E G st1 := by
  cases h with
  | new alloc af pp saddr sport daddr dport caddr cport hfresh =>
    exact inv.t_new hF alloc hfresh af pp saddr sport daddr dport caddr cport
  | hash cp h => exact inv.t_hash hF h
  | unhash cp h => exact inv.t_unhash cp
  | get af protocol addr port dir => exact inv.t_get af protocol addr port dir
  | put jiffies cp h => exact inv.t_put jiffies h
  | expire jiffies cp h => exact inv.t_expire hF jiffies h

theorem Reachable.reach_inv {E : Env} {G : Globals} (hF : E.IP_VS_CA_CONN_F_HASHED ≠ 0)
    {st : State} (h : Reachable E G st) : TableInv E G st := by
  induction h with
  | init => exact TableInv.t_init E G
  | step _ hs ih => exact hs.step_inv hF ih

theorem get_in (E : Env) (G : Globals) (af : Int) (protocol : Nat)
    (addr : nf_inet_addr) (port : Nat) (st : State) :
    ip_vs_ca_conn_get E G af protocol addr port E.IP_VS_CA_IN st =
      match (st.ip_vs_ca_conn_tab_s (ip_vs_ca_conn_hashkey E G af protocol addr port)).find?
          (match_s E st af protocol addr port) with
      | some cp => (some cp, atomic_inc_refcnt cp st)
      | none => (none, st) := by
  simp [ip_vs_ca_conn_get]

theorem get_out (E : Env) (G : Globals) (af : Int) (protocol : Nat)
    (addr : nf_inet_addr) (port : Nat) {dir : Int} (hdir : dir ≠ E.IP_VS_CA_IN) (st : State) :
    ip_vs_ca_conn_get E G af protocol addr port dir st =
      match (st.ip_vs_ca_conn_tab_c (ip_vs_ca_conn_hashkey E G af protocol addr port)).find?
          (match_c E st af protocol addr port) with
      | some cp => (some cp, atomic_inc_refcnt cp st)
      | none => (none, st) := by
  simp [ip_vs_ca_conn_get, hdir]

theorem get_in_some {E : Env} {G : Globals} {af : Int} {protocol : Nat}
    {addr : nf_inet_addr} {port : Nat} {st : State} {cp : Nat}
    (h : (ip_vs_ca_conn_get E G af protocol addr port E.IP_VS_CA_IN st).1 = some cp) :
    (st.ip_vs_ca_conn_tab_s (ip_vs_ca_conn_hashkey E G af protocol addr port)).find?
      (match_s E st af protocol addr port) = some cp := by
  rw [get_in] at h
  split at h
  · rename_i x hx
    simp only [Option.some.injEq] at h
    rw [hx, h]
  · simp at h

theorem get_out_some {E : Env} {G : Globals} {af : Int} {protocol : Nat}
    {addr : nf_inet_addr} {port : Nat} {dir : Int} (hdir : dir ≠ E.IP_VS_CA_IN)
    {st : State} {cp : Nat}
    (h : (ip_vs_ca_conn_get E G af protocol addr port dir st).1 = some cp) :
    (st.ip_vs_ca_conn_tab_c (ip_vs_ca_conn_hashkey E G af protocol addr port)).find?
      (match_c E st af protocol addr port) = some cp := by
  rw [get_out E G af protocol addr port hdir] at h
  split at h
  · rename_i x hx
    simp only [Option.some.injEq] at h
    rw [hx, h]
  · simp at h

theorem get_some_linked {E : Env} {G : Globals} {af : Int} {protocol : Nat}
    {addr : nf_inet_addr} {port : Nat} {dir : Int} {st : State} {cp : Nat}
    (h : (ip_vs_ca_conn_get E G af protocol addr port dir st).1 = some cp) :
    (∃ i, cp ∈ st.ip_vs_ca_conn_tab_s i) ∨ (∃ i, cp ∈ st.ip_vs_ca_conn_tab_c i) := by
  by_cases hdir : dir = E.IP_VS_CA_IN
  · subst hdir
    exact Or.inl ⟨_, List.mem_of_find?_eq_some (get_in_some h)⟩
  · exact Or.inr ⟨_, List.mem_of_find?_eq_some (get_out_some hdir h)⟩

theorem TableInv.t_linked_allocated {E : Env} {G : Globals} {st : State}
    (inv : TableInv E G st) {cp : Nat}
    (h : (∃ i, cp ∈ st.ip_vs_ca_conn_tab_s i) ∨ (∃ i, cp ∈ st.ip_vs_ca_conn_tab_c i)) :
    st.allocated cp = true ∧ is_hashed E (st.mem cp) := by
  by_contra hc
  have hu := inv.other_unlinked cp (by
    by_cases ha : st.allocated cp = true
    · exact Or.inr (fun hh => hc ⟨ha, hh⟩)
    · exact Or.inl (by simpa using ha))
  rcases h with ⟨i, hi⟩ | ⟨i, hi⟩
  · exact hu.1 i hi
  · exact hu.2 i hi

theorem hand_out_none (held : Nat → Nat) : hand_out none held = held := by
  funext q
  simp [hand_out]

theorem hand_out_some_self (cp : Nat) (held : Nat → Nat) :
    hand_out (some cp) held cp = held cp + 1 := by
  simp [hand_out]

theorem hand_out_some_of_ne {cp q : Nat} (h : q ≠ cp) (held : Nat → Nat) :
    hand_out (some cp) held q = held q := by
  simp [hand_out, Ne.symm h]

theorem RefInv.r_new {E : Env} {G : Globals} {s : Sys}
    (hF : E.IP_VS_CA_CONN_F_HASHED ≠ 0) (ref : RefInv E s)
    (alloc : Option Nat) (hfresh : ∀ p, alloc = some p → s.st.allocated p = false)
    (af : Int) (pp : ip_vs_ca_protocol)
    (saddr : nf_inet_addr) (sport : Nat) (daddr : nf_inet_addr) (dport : Nat)
    (caddr : nf_inet_addr) (cport : Nat) :
    RefInv E
      { st := (ip_vs_ca_conn_new E G alloc af pp saddr sport daddr dport caddr cport s.st).2
        held := hand_out
          (ip_vs_ca_conn_new E G alloc af pp saddr sport daddr dport caddr cport s.st).1
          s.held } := by
  cases alloc with
  | none =>
    rw [new_none, hand_out_none]
    exact ref
  | some cp =>
    have h0 := ref.free_unheld cp (hfresh cp rfl)
    rw [new_eq, hash_of_not_hashed G (new_pre_hash_not_hashed E cp af pp saddr sport daddr
      dport caddr cport s.st)]
    dsimp only
    constructor
    · intro q hq
      dsimp only at hq ⊢
      by_cases hqc : q = cp
      · subst hqc
        simp only [if_pos rfl, hand_out_some_self, h0]
        refine ⟨?_, ?_⟩
        · simp [is_hashed, lor_land_self, hF]
        · simp [new_pre_hash, new_conn]
      · simp only [if_neg hqc, hand_out_some_of_ne hqc]
        have hq2 : s.st.allocated q = true := by simpa [new_pre_hash, hqc] using hq
        simpa [new_pre_hash, hqc] using ref.counted q hq2
    · intro q hq
      dsimp only at hq ⊢
      by_cases hqc : q = cp
      · subst hqc
        simp [new_pre_hash] at hq
      · rw [hand_out_some_of_ne hqc]
        exact ref.free_unheld q (by simpa [new_pre_hash, hqc] using hq)

theorem RefInv.r_get {E : Env} {G : Globals} {s : Sys} (inv : TableInv E G s.st)
    (ref : RefInv E s) (af : Int) (protocol : Nat) (addr : nf_inet_addr) (port : Nat)
    (dir : Int) :
    RefInv E
      { st := (ip_vs_ca_conn_get E G af protocol addr port dir s.st).2
        held := hand_out (ip_vs_ca_conn_get E G af protocol addr port dir s.st).1 s.held } := by
  rw [get_state]
  cases hr : (ip_vs_ca_conn_get E G af protocol addr port dir s.st).1 with
  | none =>
    rw [hand_out_none]
    exact ref
  | some cp =>
    have hl := inv.t_linked_allocated (get_some_linked hr)
    constructor
    · intro q hq
      by_cases hqc : q = cp
      · subst hqc
        have := ref.counted q hl.1
        simp only [atomic_inc_refcnt, upd_mem_self, hand_out_some_self]
        refine ⟨this.1, ?_⟩
        simp only [this.2]
        push_cast
        ring
      · simp only [atomic_inc_refcnt, upd_mem_of_ne _ _ hqc, hand_out_some_of_ne hqc]
        exact ref.counted q hq
    · intro q hq
      dsimp only at hq ⊢
      by_cases hqc : q = cp
      · subst hqc
        simp only [atomic_inc_refcnt, upd_allocated] at hq
        rw [hl.1] at hq
        cases hq
      · rw [hand_out_some_of_ne hqc]
        exact ref.free_unheld q hq

theorem RefInv.r_held_allocated {E : Env} {s : Sys} (ref : RefInv E s) {cp : Nat}
    (h : 0 < s.held cp) : s.st.allocated cp = true := by
  by_contra hc
  have := ref.free_unheld cp (by simpa using hc)
  omega

theorem RefInv.r_put {E : Env} {s : Sys} (ref : RefInv E s) (jiffies : Nat) {cp : Nat}
    (h : 0 < s.held cp) :
    RefInv E
      { st := ip_vs_ca_conn_put jiffies cp s.st
        held := fun q => if q = cp then s.held q - 1 else s.held q } := by
  rw [put_eq]
  constructor
  · intro q hq
    by_cases hqc : q = cp
    · subst hqc
      have := ref.counted q hq
      simp only [upd_mem_self, if_pos rfl]
      refine ⟨this.1, ?_⟩
      simp only [this.2, if_true]
      omega
    · simp only [upd_mem_of_ne _ _ hqc, if_neg hqc]
      exact ref.counted q hq
  · intro q hq
    by_cases hqc : q = cp
    · subst hqc
      have := ref.free_unheld q hq
      simp only [if_pos rfl]
      omega
    · simp only [if_neg hqc]
      exact ref.free_unheld q hq

theorem RefInv.r_expire {E : Env} {G : Globals} {s : Sys}
    (hF : E.IP_VS_CA_CONN_F_HASHED ≠ 0) (inv : TableInv E G s.st) (ref : RefInv E s)
    (jiffies : Nat) {cp : Nat}
    (h : s.st.allocated cp = true ∨ (s.st.mem cp).timer.pending = true) :
    RefInv E { st := ip_vs_ca_conn_expire E G jiffies cp s.st, held := s.held } := by
  have halloc : s.st.allocated cp = true := h.elim id (inv.timer_alloc cp)
  have hc := ref.counted cp halloc
  by_cases hready : (s.st.mem cp).flags &&& E.IP_VS_CA_CONN_F_HASHED ≠ 0 ∧
      (s.st.mem cp).refcnt = 1
  · have hheld : s.held cp = 0 := by
      have := hc.2
      omega
    by_cases haf : freed_family E (s.st.mem cp).af
    · rw [expire_of_ready_freed G jiffies hready haf]
      constructor
      · intro q hq
        by_cases hqc : q = cp
        · subst hqc
          simp [kmem_cache_free] at hq
        · have hq2 : s.st.allocated q = true := by simpa [kmem_cache_free, hqc] using hq
          simpa [kmem_cache_free, upd_mem_of_ne _ _ hqc] using ref.counted q hq2
      · intro q hq
        by_cases hqc : q = cp
        · subst hqc
          exact hheld
        · exact ref.free_unheld q (by simpa [kmem_cache_free, hqc] using hq)
    · rw [expire_of_ready_kept G jiffies hready haf]
      constructor
      · intro q hq
        by_cases hqc : q = cp
        · subst hqc
          simp only [upd_mem_self, hheld]
          exact ⟨by simp [is_hashed, lor_land_self, hF], by simp⟩
        · simp only [upd_mem_of_ne _ _ hqc]
          exact ref.counted q hq
      · intro q hq
        exact ref.free_unheld q hq
  · rw [expire_of_not_ready G jiffies hready]
    constructor
    · intro q hq
      by_cases hqc : q = cp
      · subst hqc
        simp only [upd_mem_self]
        exact ref.counted q hq
      · simp only [upd_mem_of_ne _ _ hqc]
        exact ref.counted q hq
    · intro q hq
      exact ref.free_unheld q hq

theorem DReachable.dreach_inv {E : Env} {G : Globals} (hF : E.IP_VS_CA_CONN_F_HASHED ≠ 0)
    {s : Sys} (h : DReachable E G s) : TableInv E G s.st ∧ RefInv E s := by
  induction h with
  | init =>
    refine ⟨TableInv.t_init E G, ?_, ?_⟩
    · intro cp hcp
      simp [init_state] at hcp
    · intro cp _
      rfl
  | step _ hs ih =>
    obtain ⟨inv, ref⟩ := ih
    cases hs with
    | new alloc af pp saddr sport daddr dport caddr cport hfresh =>
      exact ⟨inv.t_new hF alloc hfresh af pp saddr sport daddr dport caddr cport,
        ref.r_new hF alloc hfresh af pp saddr sport daddr dport caddr cport⟩
    | get af protocol addr port dir =>
      exact ⟨inv.t_get af protocol addr port dir, ref.r_get inv af protocol addr port dir⟩
    | put jiffies cp h =>
      exact ⟨inv.t_put jiffies (ref.r_held_allocated h), ref.r_put jiffies h⟩
    | expire jiffies cp h =>
      exact ⟨inv.t_expire hF jiffies h, ref.r_expire hF inv jiffies h⟩

/-! ## Claim C1: `ip_vs_ca_conn_unhash` -/

/-- C2: in every state reachable from the initialised empty table by calls
of `new`, `hash`, `unhash`, `get`, `put` and `expire`, every allocated entry
either has the HASHED flag set and is chained into exactly one bucket of the
server table and exactly one bucket of the client table, or has the flag
clear and is chained into no bucket of either table; an object is in some
server bucket iff it is in some client bucket, and an object that is not
allocated is in no bucket. -/
theorem reachable_both_or_neither (E : Env) (G : Globals)
    (hF : E.IP_VS_CA_CONN_F_HASHED ≠ 0) (st : State) (h : Reachable E G st) (cp : Nat) :
    (st.allocated cp = true →
      (is_hashed E (st.mem cp) ∧ linked_once st.ip_vs_ca_conn_tab_s cp ∧
        linked_once st.ip_vs_ca_conn_tab_c cp) ∨
      (¬ is_hashed E (st.mem cp) ∧ unlinked st.ip_vs_ca_conn_tab_s cp ∧
        unlinked st.ip_vs_ca_conn_tab_c cp)) ∧
    ((∃ i, cp ∈ st.ip_vs_ca_conn_tab_s i) ↔ (∃ j, cp ∈ st.ip_vs_ca_conn_tab_c j)) ∧
    (st.allocated cp = false →
      unlinked st.ip_vs_ca_conn_tab_s cp ∧ unlinked st.ip_vs_ca_conn_tab_c cp) := by
  have inv := h.reach_inv hF
  refine ⟨fun ha => ?_, ?_, fun ha => inv.other_unlinked cp (Or.inl ha)⟩
  · by_cases hh : is_hashed E (st.mem cp)
    · have hl := inv.hashed_linked cp ha hh
      exact Or.inl ⟨hh, ⟨_, hl.1⟩, ⟨_, hl.2⟩⟩
    · exact Or.inr ⟨hh, inv.other_unlinked cp (Or.inr hh)⟩
  · by_cases hc : st.allocated cp = true ∧ is_hashed E (st.mem cp)
    · have hl := inv.hashed_linked cp hc.1 hc.2
      exact ⟨fun _ => ⟨_, linked_at_mem hl.2⟩, fun _ => ⟨_, linked_at_mem hl.1⟩⟩
    · have hu := inv.other_unlinked cp (by
        by_cases ha : st.allocated cp = true
        · exact Or.inr (fun hh => hc ⟨ha, hh⟩)
        · exact Or.inl (by simpa using ha))
      exact ⟨fun ⟨i, hi⟩ => absurd hi (hu.1 i), fun ⟨j, hj⟩ => absurd hj (hu.2 j)⟩

/-- Witness for C2: the state after one `ip_vs_ca_conn_new` from the empty
table, at the entry it created. -/
theorem reachable_both_or_neither_witness :
    E0.IP_VS_CA_CONN_F_HASHED ≠ 0 ∧
    Reachable E0 G0 (scenario_new E0 G0 1 init_state).2 ∧
    (((scenario_new E0 G0 1 init_state).2.allocated 1 = true →
      (is_hashed E0 ((scenario_new E0 G0 1 init_state).2.mem 1) ∧
        linked_once (scenario_new E0 G0 1 init_state).2.ip_vs_ca_conn_tab_s 1 ∧
        linked_once (scenario_new E0 G0 1 init_state).2.ip_vs_ca_conn_tab_c 1) ∨
      (¬ is_hashed E0 ((scenario_new E0 G0 1 init_state).2.mem 1) ∧
        unlinked (scenario_new E0 G0 1 init_state).2.ip_vs_ca_conn_tab_s 1 ∧
        unlinked (scenario_new E0 G0 1 init_state).2.ip_vs_ca_conn_tab_c 1)) ∧
    ((∃ i, 1 ∈ (scenario_new E0 G0 1 init_state).2.ip_vs_ca_conn_tab_s i) ↔
      (∃ j, 1 ∈ (scenario_new E0 G0 1 init_state).2.ip_vs_ca_conn_tab_c j)) ∧
    ((scenario_new E0 G0 1 init_state).2.allocated 1 = false →
      unlinked (scenario_new E0 G0 1 init_state).2.ip_vs_ca_conn_tab_s 1 ∧
        unlinked (scenario_new E0 G0 1 init_state).2.ip_vs_ca_conn_tab_c 1)) :=
  have hF : E0.IP_VS_CA_CONN_F_HASHED ≠ 0 := by decide
  have hr : Reachable E0 G0 (scenario_new E0 G0 1 init_state).2 :=
    Reachable.step Reachable.init
      (Step.new init_state (some 1) AF_INET (pp_tcp E0) (ipv4 10 0 0 1) (htons 80)
        (ipv4 10 0 0 2) (htons 8080) (ipv4 1 2 3 4) (htons 5555) (fun _ _ => rfl))
  ⟨hF, hr, reachable_both_or_neither E0 G0 hF _ hr 1⟩

/-! ## Claim C3: reference counts under disciplined callers -/

/-- C3: in every state reachable from the initialised empty table by calls
of `new`, `get`, `put` and `expire` in which `put` is called once for each
reference handed out by `new` or by a `get` hit, a hashed entry has a
reference count of at least 1; and when a call of `ip_vs_ca_conn_expire`
frees (calls `kmem_cache_free`), it does so exactly once, on its own entry,
which was allocated until then (so it had not been freed before), which no
caller holds, and which at that point, the last action of the callback, has
the HASHED flag clear and a reference count of exactly 1. -/
theorem disciplined_refcount_and_free (E : Env) (G : Globals)
    (hF : E.IP_VS_CA_CONN_F_HASHED ≠ 0) (s : Sys) (h : DReachable E G s)
    (jiffies cp : Nat) :
    (s.st.allocated cp = true → is_hashed E (s.st.mem cp) → 1 ≤ (s.st.mem cp).refcnt) ∧
    ((s.st.allocated cp = true ∨ (s.st.mem cp).timer.pending = true) →
      (ip_vs_ca_conn_expire E G jiffies cp s.st).kmem_frees ≠ s.st.kmem_frees →
        s.st.allocated cp = true ∧ s.held cp = 0 ∧
        (ip_vs_ca_conn_expire E G jiffies cp s.st).kmem_frees = s.st.kmem_frees + 1 ∧
        (ip_vs_ca_conn_expire E G jiffies cp s.st).allocated cp = false ∧
        (∀ q, q ≠ cp →
          (ip_vs_ca_conn_expire E G jiffies cp s.st).allocated q = s.st.allocated q) ∧
        ¬ is_hashed E ((ip_vs_ca_conn_expire E G jiffies cp s.st).mem cp) ∧
        ((ip_vs_ca_conn_expire E G jiffies cp s.st).mem cp).refcnt = 1) := by
  obtain ⟨inv, ref⟩ := h.dreach_inv hF
  refine ⟨fun ha _ => ?_, fun hpre hfree => ?_⟩
  · have := (ref.counted cp ha).2
    omega
  · have halloc : s.st.allocated cp = true := hpre.elim id (inv.timer_alloc cp)
    have hc := ref.counted cp halloc
    by_cases hready : (s.st.mem cp).flags &&& E.IP_VS_CA_CONN_F_HASHED ≠ 0 ∧
        (s.st.mem cp).refcnt = 1
    · by_cases haf : freed_family E (s.st.mem cp).af
      · rw [expire_of_ready_freed G jiffies hready haf]
        refine ⟨halloc, ?_, rfl, ?_, ?_, ?_, ?_⟩
        · have := hc.2
          omega
        · simp [kmem_cache_free]
        · intro q hq
          simp [kmem_cache_free, hq]
        · simp [kmem_cache_free, is_hashed, and_not_land_self]
        · simp [kmem_cache_free]
      · rw [expire_of_ready_kept G jiffies hready haf] at hfree
        exact absurd rfl hfree
    · rw [expire_of_not_ready G jiffies hready] at hfree
      exact absurd rfl hfree

theorem sysB_reachable : DReachable E0 G0 sysB :=
  DReachable.step
    (DReachable.step DReachable.init
      (DStep.new { st := init_state, held := fun _ => 0 } (some 1) AF_INET (pp_tcp E0)
        (ipv4 10 0 0 1) (htons 80) (ipv4 10 0 0 2) (htons 8080) (ipv4 1 2 3 4) (htons 5555)
        (fun _ _ => rfl)))
    (DStep.put sysA 100 1 (by decide))

/-- Witness for C3: the entry created at address 1 and put once; the expiry
callback at time 60100 frees it. -/
theorem disciplined_refcount_and_free_witness :
    E0.IP_VS_CA_CONN_F_HASHED ≠ 0 ∧ DReachable E0 G0 sysB ∧
    1 ≤ (sysB.st.mem 1).refcnt ∧
    (sysB.st.allocated 1 = true ∧ sysB.held 1 = 0 ∧
      (ip_vs_ca_conn_expire E0 G0 60100 1 sysB.st).kmem_frees = sysB.st.kmem_frees + 1 ∧
      (ip_vs_ca_conn_expire E0 G0 60100 1 sysB.st).allocated 1 = false ∧
      (∀ q, q ≠ 1 →
        (ip_vs_ca_conn_expire E0 G0 60100 1 sysB.st).allocated q = sysB.st.allocated q) ∧
      ¬ is_hashed E0 ((ip_vs_ca_conn_expire E0 G0 60100 1 sysB.st).mem 1) ∧
      ((ip_vs_ca_conn_expire E0 G0 60100 1 sysB.st).mem 1).refcnt = 1) :=
  ⟨by decide, sysB_reachable,
    (disciplined_refcount_and_free E0 G0 (by decide) sysB sysB_reachable 60100 1).1
      (by decide) (by decide),
    (disciplined_refcount_and_free E0 G0 (by decide) sysB sysB_reachable 60100 1).2
      (Or.inl (by decide)) (by decide)⟩

/-- The state after a successful `ip_vs_ca_conn_new`. -/
theorem new_closed {E : Env} (G : Globals) (cp : Nat) (af : Int) (pp : ip_vs_ca_protocol)
    (saddr : nf_inet_addr) (sport : Nat) (daddr : nf_inet_addr) (dport : Nat)
    (caddr : nf_inet_addr) (cport : Nat) (st : State) :
    ip_vs_ca_conn_new E G (some cp) af pp saddr sport daddr dport caddr cport st =
      (some cp,
        { mem := fun p =>
            if p = cp then
              { new_conn E cp af pp saddr sport daddr dport caddr cport with
                flags := E.IP_VS_CA_CONN_F_HASHED
                refcnt := 2 }
            else st.mem p
          allocated := fun p => if p = cp then true else st.allocated p
          kmem_allocs := st.kmem_allocs + 1
          kmem_frees := st.kmem_frees
          ip_vs_ca_conn_tab_s := list_add cp
            (shash E G (new_conn E cp af pp saddr sport daddr dport caddr cport))
            st.ip_vs_ca_conn_tab_s
          ip_vs_ca_conn_tab_c := list_add cp
            (chash E G (new_conn E cp af pp saddr sport daddr dport caddr cport))
            st.ip_vs_ca_conn_tab_c
          ip_vs_ca_conn_count := st.ip_vs_ca_conn_count + 1 }) := by
  rw [new_eq, hash_of_not_hashed G (new_pre_hash_not_hashed E cp af pp saddr sport daddr
    dport caddr cport st)]
  refine Prod.ext rfl (State.ext ?_ rfl rfl rfl ?_ ?_ rfl)
  · funext p
    by_cases hp : p = cp
    · subst hp
      simp [new_pre_hash, new_conn]
    · simp [new_pre_hash, hp]
  · simp [new_pre_hash]
  · simp [new_pre_hash]

/-- The part of C10 that holds for every entry: when the entry is not both
hashed and referenced by the table only, the callback frees nothing, leaves
the live-entry counter, both bucket arrays, the flags and the reference count
as they were, sets the timeout to `60 * HZ` and arms the timer to fire
`60 * HZ` from now. -/
theorem expire_later_effect (E : Env) (G : Globals) (jiffies cp : Nat) (st : State)
    (h : ¬ (is_hashed E (st.mem cp) ∧ (st.mem cp).refcnt = 1)) :
    (ip_vs_ca_conn_expire E G jiffies cp st).allocated = st.allocated ∧
    (ip_vs_ca_conn_expire E G jiffies cp st).kmem_frees = st.kmem_frees ∧
    (ip_vs_ca_conn_expire E G jiffies cp st).ip_vs_ca_conn_count = st.ip_vs_ca_conn_count ∧
    (ip_vs_ca_conn_expire E G jiffies cp st).ip_vs_ca_conn_tab_s = st.ip_vs_ca_conn_tab_s ∧
    (ip_vs_ca_conn_expire E G jiffies cp st).ip_vs_ca_conn_tab_c = st.ip_vs_ca_conn_tab_c ∧
    ((ip_vs_ca_conn_expire E G jiffies cp st).mem cp).flags = (st.mem cp).flags ∧
    ((ip_vs_ca_conn_expire E G jiffies cp st).mem cp).refcnt = (st.mem cp).refcnt ∧
    ((ip_vs_ca_conn_expire E G jiffies cp st).mem cp).timeout = 60 * E.HZ ∧
    ((ip_vs_ca_conn_expire E G jiffies cp st).mem cp).timer.pending = true ∧
    ((ip_vs_ca_conn_expire E G jiffies cp st).mem cp).timer.expires = jiffies + 60 * E.HZ := by
  rw [expire_of_not_ready G jiffies h]
  simp [mod_timer]

/-- The part of C10 that holds for the families the callback frees
(`AF_INET`, and `AF_INET6` when IPv6 is compiled in): a hashed entry that
only the table references is unhashed and freed and the live-entry counter
drops by exactly 1. -/
theorem expire_ready_freed_effect (E : Env) (G : Globals) (jiffies cp : Nat) (st : State)
    (h : is_hashed E (st.mem cp) ∧ (st.mem cp).refcnt = 1)
    (haf : freed_family E (st.mem cp).af) :
    (ip_vs_ca_conn_expire E G jiffies cp st).allocated cp = false ∧
    (ip_vs_ca_conn_expire E G jiffies cp st).kmem_frees = st.kmem_frees + 1 ∧
    (ip_vs_ca_conn_expire E G jiffies cp st).ip_vs_ca_conn_count =
      st.ip_vs_ca_conn_count - 1 ∧
    unlinked (ip_vs_ca_conn_expire E G jiffies cp st).ip_vs_ca_conn_tab_s cp ∧
    unlinked (ip_vs_ca_conn_expire E G jiffies cp st).ip_vs_ca_conn_tab_c cp := by
  rw [expire_of_ready_freed G jiffies h haf]
  exact ⟨by simp [kmem_cache_free], rfl, rfl, unlinked_list_del_self _ _,
    unlinked_list_del_self _ _⟩

/-- C10 fails on the code: an entry of a family the callback does not free
(`AF_INET6` in a build without `CONFIG_IP_VS_CA_IPV6`; family 0 in a build
with it), hashed and referenced by the table only.  The callback decrements
the live-entry counter from 1 to 0, yet calls no `kmem_cache_free`: the entry
stays allocated, is hashed back and keeps reference count 1. -/
theorem expire_unfreed_family_evaluation :
    (is_hashed E4 (stV6.mem 1) ∧ (stV6.mem 1).refcnt = 1 ∧ (stV6.mem 1).af = AF_INET6 ∧
      stV6.allocated 1 = true ∧ stV6.ip_vs_ca_conn_count = 1 ∧ stV6.kmem_frees = 0) ∧
    ((ip_vs_ca_conn_expire E4 G0 60100 1 stV6).ip_vs_ca_conn_count = 0 ∧
      (ip_vs_ca_conn_expire E4 G0 60100 1 stV6).kmem_frees = 0 ∧
      (ip_vs_ca_conn_expire E4 G0 60100 1 stV6).allocated 1 = true ∧
      is_hashed E4 ((ip_vs_ca_conn_expire E4 G0 60100 1 stV6).mem 1) ∧
      ((ip_vs_ca_conn_expire E4 G0 60100 1 stV6).mem 1).refcnt = 1) ∧
    (is_hashed E0 (stUnspec.mem 1) ∧ (stUnspec.mem 1).refcnt = 1 ∧ (stUnspec.mem 1).af = 0 ∧
      stUnspec.allocated 1 = true ∧ stUnspec.ip_vs_ca_conn_count = 1 ∧
      stUnspec.kmem_frees = 0) ∧
    ((ip_vs_ca_conn_expire E0 G0 60100 1 stUnspec).ip_vs_ca_conn_count = 0 ∧
      (ip_vs_ca_conn_expire E0 G0 60100 1 stUnspec).kmem_frees = 0 ∧
      (ip_vs_ca_conn_expire E0 G0 60100 1 stUnspec).allocated 1 = true ∧
      is_hashed E0 ((ip_vs_ca_conn_expire E0 G0 60100 1 stUnspec).mem 1) ∧
      ((ip_vs_ca_conn_expire E0 G0 60100 1 stUnspec).mem 1).refcnt = 1) := by
  decide

/-! ## Claim C11: the live-entry counter -/

theorem sysV6C_reachable : DReachable E4 G0 sysV6C :=
  DReachable.step
    (DReachable.step
      (DReachable.step DReachable.init
        (DStep.new { st := init_state, held := fun _ => 0 } (some 1) AF_INET6 (pp_tcp E4)
          (ipv4 10 0 0 1) (htons 80) (ipv4 10 0 0 2) (htons 8080) (ipv4 1 2 3 4) (htons 5555)
          (fun _ _ => rfl)))
      (DStep.put sysV6A 100 1 (by decide)))
    (DStep.expire sysV6B 60100 1 (Or.inl (by decide)))

/-- C11 fails on the code: disciplined callers create an entry of family
`AF_INET6` in a build without `CONFIG_IP_VS_CA_IPV6` (one allocation, counter
1), put the creator's reference, and the expiry callback runs once.  The
state is reachable, one entry has been created and none freed (the entry is
still allocated), yet the live-entry counter is 0: it was decremented
without a free. -/
theorem counter_drift_evaluation :
    DReachable E4 G0 sysV6C ∧
    (sysV6B.st.ip_vs_ca_conn_count = 1 ∧ sysV6B.st.kmem_allocs = 1 ∧
      sysV6B.st.kmem_frees = 0) ∧
    (sysV6C.st.kmem_allocs = 1 ∧ sysV6C.st.kmem_frees = 0 ∧
      sysV6C.st.allocated 1 = true ∧ sysV6C.st.ip_vs_ca_conn_count = 0) :=
  ⟨sysV6C_reachable,
    by decide, by decide⟩

/-! ## Claim C12: `ip_vs_ca_conn_flush` -/

/-- When `ip_vs_ca_conn_flush` returns, the live-entry counter is 0: that is
its loop exit test. -/
theorem flush_returns_zero (G : Globals) (sched : Nat → State → State) (jiffies : Nat → Nat)
    (fuel : Nat) (st st1 : State)
    (h : ip_vs_ca_conn_flush G sched jiffies fuel st = some st1) :
    st1.ip_vs_ca_conn_count = 0 := by
  induction fuel generalizing st with
  | zero => simp [ip_vs_ca_conn_flush] at h
  | succ n ih =>
    unfold ip_vs_ca_conn_flush at h
    simp only [] at h
    split at h
    · exact ih _ h
    · rename_i hz
      simp only [Option.some.injEq] at h
      rw [← h]
      simpa using hz

/-- C12 fails on the code: in the reachable state of C11's evaluation (an
`AF_INET6` entry in a build without IPv6 support, live-entry counter
decremented to 0 while the entry is hashed) `ip_vs_ca_conn_flush` returns
after its first sweep with the counter 0, and the entry is still in its
server bucket and in its client bucket. -/
theorem flush_leaves_entry_evaluation :
    DReachable E4 G0 sysV6C ∧
    (ip_vs_ca_conn_flush G0 (fun _ s => s) (fun _ => 70000) 1 sysV6C.st).map
      (fun s => (s.ip_vs_ca_conn_count, s.ip_vs_ca_conn_tab_s 153, s.ip_vs_ca_conn_tab_c 231,
        s.allocated 1)) = some (0, [1], [1], true) :=
  ⟨sysV6C_reachable,
    by
      set_option maxRecDepth 100000 in
      decide⟩

/-! ## Claim C13: `ip_vs_ca_conn_expire_now` -/

/-- Counterexample to C13 as stated: the entry that `ip_vs_ca_conn_new`
returned and on which `put` was never called is in its server bucket, its
timer is not pending, and after `ip_vs_ca_conn_expire_now` at time 70000 the
timer is still not pending. -/
theorem expire_now_not_pending_counterexample :
    1 ∈ sysA.st.ip_vs_ca_conn_tab_s 153 ∧
    (sysA.st.mem 1).timer.pending = false ∧
    ((ip_vs_ca_conn_expire_now 70000 1 sysA.st).mem 1).timer.pending = false := by
  decide

/-- C13 (amended): for an entry whose timer is pending,
`ip_vs_ca_conn_expire_now` leaves the timer pending with an expiry time
equal to the current time; for an entry whose timer is not pending (such as
one returned by `ip_vs_ca_conn_new` on which `put` was never called) it
changes nothing, and the timer stays not pending.  No other entry and
nothing else in the table is touched. -/
theorem ip_vs_ca_conn_expire_now_effect (jiffies cp : Nat) (st : State) :
    ((st.mem cp).timer.pending = true →
      ((ip_vs_ca_conn_expire_now jiffies cp st).mem cp).timer.pending = true ∧
      ((ip_vs_ca_conn_expire_now jiffies cp st).mem cp).timer.expires = jiffies) ∧
    ((st.mem cp).timer.pending = false →
      ip_vs_ca_conn_expire_now jiffies cp st = st ∧
      ((ip_vs_ca_conn_expire_now jiffies cp st).mem cp).timer.pending = false) ∧
    (∀ q, q ≠ cp → (ip_vs_ca_conn_expire_now jiffies cp st).mem q = st.mem q) ∧
    (ip_vs_ca_conn_expire_now jiffies cp st).ip_vs_ca_conn_tab_s = st.ip_vs_ca_conn_tab_s ∧
    (ip_vs_ca_conn_expire_now jiffies cp st).ip_vs_ca_conn_tab_c = st.ip_vs_ca_conn_tab_c ∧
    (ip_vs_ca_conn_expire_now jiffies cp st).ip_vs_ca_conn_count = st.ip_vs_ca_conn_count := by
  unfold ip_vs_ca_conn_expire_now
  by_cases hp : (st.mem cp).timer.pending = true
  · simp only [hp, if_true]
    refine ⟨fun _ => ?_, fun h => by simp at h, fun q hq => ?_, rfl, rfl, rfl⟩
    · simp [mod_timer]
    · simp [upd_mem_of_ne _ _ hq]
  · have hp2 : (st.mem cp).timer.pending = false := by simpa using hp
    have hst : st.upd cp (fun c => { c with timer := del_timer c.timer }) = st := by
      refine State.ext ?_ rfl rfl rfl rfl rfl rfl
      funext p
      by_cases hpc : p = cp
      · subst hpc
        simp [State.upd, del_timer_of_not_pending hp]
      · simp [State.upd, hpc]
    rw [if_neg hp, hst]
    exact ⟨fun h => absurd h hp, fun _ => ⟨rfl, hp2⟩, fun _ _ => rfl, rfl, rfl, rfl⟩

/-! ## Claims C14, C15, C16: the two-key locking protocol -/

/-- The three cases of `ct_lock2`, by the order of the two shard indices. -/
theorem ct_lock2_cases (G : Globals) (shash chash : Nat) :
    (shash &&& G.ct_lockarray_mask < chash &&& G.ct_lockarray_mask →
      ct_lock2 G shash chash =
        [lock_op.write_lock { arr := lock_array.s, idx := shash &&& G.ct_lockarray_mask },
         lock_op.write_lock { arr := lock_array.c, idx := chash &&& G.ct_lockarray_mask }]) ∧
    (chash &&& G.ct_lockarray_mask < shash &&& G.ct_lockarray_mask →
      ct_lock2 G shash chash =
        [lock_op.write_lock { arr := lock_array.c, idx := chash &&& G.ct_lockarray_mask },
         lock_op.write_lock { arr := lock_array.s, idx := shash &&& G.ct_lockarray_mask }]) ∧
    (shash &&& G.ct_lockarray_mask = chash &&& G.ct_lockarray_mask →
      ct_lock2 G shash chash =
        [lock_op.write_lock { arr := lock_array.s, idx := shash &&& G.ct_lockarray_mask }]) := by
  refine ⟨fun h => ?_, fun h => ?_, fun h => ?_⟩
  · simp [ct_lock2, h, ct_write_lock_bh_s, ct_write_lock_bh_c]
  · have h2 : ¬ (shash &&& G.ct_lockarray_mask < chash &&& G.ct_lockarray_mask) := by omega
    simp [ct_lock2, h, h2, ct_write_lock_bh_s, ct_write_lock_bh_c]
  · simp [ct_lock2, h, ct_write_lock_bh_s]

/-- The three cases of `ct_unlock2`, by the order of the two shard
indices. -/
theorem ct_unlock2_cases (G : Globals) (shash chash : Nat) :
    (shash &&& G.ct_lockarray_mask < chash &&& G.ct_lockarray_mask →
      ct_unlock2 G shash chash =
        [lock_op.write_unlock { arr := lock_array.c, idx := chash &&& G.ct_lockarray_mask },
         lock_op.write_unlock { arr := lock_array.s, idx := shash &&& G.ct_lockarray_mask }]) ∧
    (chash &&& G.ct_lockarray_mask < shash &&& G.ct_lockarray_mask →
      ct_unlock2 G shash chash =
        [lock_op.write_unlock { arr := lock_array.s, idx := shash &&& G.ct_lockarray_mask },
         lock_op.write_unlock { arr := lock_array.c, idx := chash &&& G.ct_lockarray_mask }]) ∧
    (shash &&& G.ct_lockarray_mask = chash &&& G.ct_lockarray_mask →
      ct_unlock2 G shash chash =
        [lock_op.write_unlock { arr := lock_array.c, idx := shash &&& G.ct_lockarray_mask }]) := by
  refine ⟨fun h => ?_, fun h => ?_, fun h => ?_⟩
  · simp [ct_unlock2, h, ct_write_unlock_bh_s, ct_write_unlock_bh_c]
  · have h2 : ¬ (shash &&& G.ct_lockarray_mask < chash &&& G.ct_lockarray_mask) := by omega
    simp [ct_unlock2, h, h2, ct_write_unlock_bh_s, ct_write_unlock_bh_c]
  · simp [ct_unlock2, h, ct_write_unlock_bh_c]

/-- The part of C14 and C15 that holds: when the two shard indices differ,
`ct_lock2` acquires the server lock and the client lock, `ct_unlock2`
releases the same two locks in the reverse order, and the pair of calls
leaves the held locks as they were. -/
theorem ct_lock2_unlock2_of_ne (G : Globals) (shash chash : Nat) (held : List lock_ref)
    (h : shash &&& G.ct_lockarray_mask ≠ chash &&& G.ct_lockarray_mask) :
    released (ct_unlock2 G shash chash) = (acquired (ct_lock2 G shash chash)).reverse ∧
    { arr := lock_array.s, idx := shash &&& G.ct_lockarray_mask } ∈
      acquired (ct_lock2 G shash chash) ∧
    { arr := lock_array.c, idx := chash &&& G.ct_lockarray_mask } ∈
      acquired (ct_lock2 G shash chash) ∧
    run_locks (ct_lock2 G shash chash ++ ct_unlock2 G shash chash) held = held := by
  rcases Nat.lt_or_gt_of_ne h with hlt | hgt
  · rw [(ct_lock2_cases G shash chash).1 hlt, (ct_unlock2_cases G shash chash).1 hlt]
    simp [acquired, released, run_locks, lock_step]
  · rw [(ct_lock2_cases G shash chash).2.1 hgt, (ct_unlock2_cases G shash chash).2.1 hgt]
    simp [acquired, released, run_locks, lock_step]

/-- When the two shard indices are equal, `ct_lock2` acquires the lock of
the server array only and `ct_unlock2` releases the lock of the client
array only. -/
theorem ct_lock2_unlock2_of_eq (G : Globals) (shash chash : Nat)
    (h : shash &&& G.ct_lockarray_mask = chash &&& G.ct_lockarray_mask) :
    acquired (ct_lock2 G shash chash) =
      [{ arr := lock_array.s, idx := shash &&& G.ct_lockarray_mask }] ∧
    released (ct_unlock2 G shash chash) =
      [{ arr := lock_array.c, idx := shash &&& G.ct_lockarray_mask }] ∧
    run_locks (ct_lock2 G shash chash ++ ct_unlock2 G shash chash) [] =
      [{ arr := lock_array.s, idx := shash &&& G.ct_lockarray_mask }] := by
  rw [(ct_lock2_cases G shash chash).2.2 h, (ct_unlock2_cases G shash chash).2.2 h]
  simp [acquired, released, run_locks, lock_step]

/-- C14 fails on the code: for `shash = chash = 5` (equal shard indices)
`ct_lock2` acquires the write lock 5 of the server array and `ct_unlock2`
releases the write lock 5 of the client array, which was not acquired; after
the pair of calls, started with no lock held, the server lock 5 is still
held. -/
theorem ct_unlock2_alias_evaluation :
    ct_lock2 G0 5 5 = [lock_op.write_lock { arr := lock_array.s, idx := 5 }] ∧
    ct_unlock2 G0 5 5 = [lock_op.write_unlock { arr := lock_array.c, idx := 5 }] ∧
    released (ct_unlock2 G0 5 5) ≠ (acquired (ct_lock2 G0 5 5)).reverse ∧
    run_locks (ct_lock2 G0 5 5 ++ ct_unlock2 G0 5 5) [] =
      [{ arr := lock_array.s, idx := 5 }] := by
  decide

/-- C15 fails on the code: the entry of `stAlias` has server bucket 153 and
client bucket 153.  Around its insertion `ct_lock2` acquires the write lock
153 of the server array only; the write lock 153 of the client array, the one
`ip_vs_ca_conn_get` read-locks for a lookup of that client key, is not held
while `ip_vs_ca_conn_hash` puts the entry into the client bucket 153. -/
theorem lock2_alias_evaluation :
    shash E0 G0 (stAliasPre.mem 1) = 153 ∧ chash E0 G0 (stAliasPre.mem 1) = 153 ∧
    critical_section_locks E0 G0 (stAliasPre.mem 1) = [{ arr := lock_array.s, idx := 153 }] ∧
    ({ arr := lock_array.c, idx := 153 } : lock_ref) ∉
      critical_section_locks E0 G0 (stAliasPre.mem 1) ∧
    (ip_vs_ca_conn_hash E0 G0 1 stAliasPre).1 = 1 ∧
    (ip_vs_ca_conn_hash E0 G0 1 stAliasPre).2.ip_vs_ca_conn_tab_c 153 = [1] ∧
    get_read_lock E0 G0 AF_INET IPPROTO_TCP (ipv4 1 2 3 4) (htons 42752) 1 =
      lock_op.read_lock { arr := lock_array.c, idx := 153 } := by
  decide

/-- C16: the shard indices of the locks `ct_lock2` acquires, in the order
of acquisition, are strictly increasing: when the two shard indices differ
the lock with the smaller index is acquired first and the one with the
larger index second, and when they are equal exactly one lock is acquired;
no lock is acquired before one of a lower index. -/
theorem ct_lock2_ordered (G : Globals) (shash chash : Nat) :
    ((acquired (ct_lock2 G shash chash)).map (fun l => l.idx)).Pairwise (fun a b => a < b) ∧
    (shash &&& G.ct_lockarray_mask < chash &&& G.ct_lockarray_mask →
      acquired (ct_lock2 G shash chash) =
        [{ arr := lock_array.s, idx := shash &&& G.ct_lockarray_mask },
         { arr := lock_array.c, idx := chash &&& G.ct_lockarray_mask }]) ∧
    (chash &&& G.ct_lockarray_mask < shash &&& G.ct_lockarray_mask →
      acquired (ct_lock2 G shash chash) =
        [{ arr := lock_array.c, idx := chash &&& G.ct_lockarray_mask },
         { arr := lock_array.s, idx := shash &&& G.ct_lockarray_mask }]) ∧
    (shash &&& G.ct_lockarray_mask = chash &&& G.ct_lockarray_mask →
      (acquired (ct_lock2 G shash chash)).length = 1) ∧
    acquired (ct_lock2 G shash chash) = (ct_lock2 G shash chash).map lock_op.target := by
  rcases Nat.lt_trichotomy (shash &&& G.ct_lockarray_mask) (chash &&& G.ct_lockarray_mask)
    with hlt | heq | hgt
  · rw [(ct_lock2_cases G shash chash).1 hlt]
    refine ⟨by simpa [acquired] using hlt, fun _ => by simp [acquired],
      fun h => absurd h (by omega), fun h => absurd h (by omega), by simp [acquired, lock_op.target]⟩
  · rw [(ct_lock2_cases G shash chash).2.2 heq]
    refine ⟨by simp [acquired], fun h => absurd h (by omega), fun h => absurd h (by omega),
      fun _ => by simp [acquired], by simp [acquired, lock_op.target]⟩
  · rw [(ct_lock2_cases G shash chash).2.1 hgt]
    refine ⟨by simpa [acquired] using hgt, fun h => absurd h (by omega),
      fun _ => by simp [acquired], fun h => absurd h (by omega), by simp [acquired, lock_op.target]⟩

/-! ## Claim C17: table and lock array sizes -/

theorem hashkey_eq_land (E : Env) (G : Globals) (af : Int) (proto : Nat)
    (addr : nf_inet_addr) (port : Nat) :
    ∃ x, ip_vs_ca_conn_hashkey E G af proto addr port = x &&& G.ip_vs_ca_conn_tab_mask := by
  unfold ip_vs_ca_conn_hashkey
  split
  · exact ⟨_, rfl⟩
  · exact ⟨_, rfl⟩

/-- C17: for a table-size exponent `b` with `0 <= b <= 30`, after
`conn_tab_size_init` the bucket count is `2^b`, the bucket mask is
`2^b - 1`, and the lock-array size and mask equal the bucket count and the
bucket mask; hence for every family, protocol, address, port and seed,
`ip_vs_ca_conn_hashkey` returns a value `h` below the bucket count with
`h & ct_lockarray_mask = h`, so that bucket index and shard index are in the
bounds of their arrays. -/
theorem conn_tab_size_init_bounds (E : Env) (G : Globals)
    (hb : G.ip_vs_ca_conn_tab_bits ≤ 30) (af : Int) (proto : Nat) (addr : nf_inet_addr)
    (port : Nat) :
    (conn_tab_size_init G).ip_vs_ca_conn_tab_size = 2 ^ G.ip_vs_ca_conn_tab_bits ∧
    (conn_tab_size_init G).ip_vs_ca_conn_tab_size < 2 ^ 31 ∧
    (conn_tab_size_init G).ip_vs_ca_conn_tab_mask = 2 ^ G.ip_vs_ca_conn_tab_bits - 1 ∧
    (conn_tab_size_init G).ct_lockarray_size = (conn_tab_size_init G).ip_vs_ca_conn_tab_size ∧
    (conn_tab_size_init G).ct_lockarray_mask = (conn_tab_size_init G).ip_vs_ca_conn_tab_mask ∧
    (conn_tab_size_init G).ip_vs_ca_conn_rnd = G.ip_vs_ca_conn_rnd ∧
    ip_vs_ca_conn_hashkey E (conn_tab_size_init G) af proto addr port <
      (conn_tab_size_init G).ip_vs_ca_conn_tab_size ∧
    ip_vs_ca_conn_hashkey E (conn_tab_size_init G) af proto addr port &&&
        (conn_tab_size_init G).ct_lockarray_mask =
      ip_vs_ca_conn_hashkey E (conn_tab_size_init G) af proto addr port ∧
    ip_vs_ca_conn_hashkey E (conn_tab_size_init G) af proto addr port <
      (conn_tab_size_init G).ct_lockarray_size := by
  have hs : (conn_tab_size_init G).ip_vs_ca_conn_tab_size = 2 ^ G.ip_vs_ca_conn_tab_bits := by
    simp [conn_tab_size_init, Nat.one_shiftLeft]
  have hm : (conn_tab_size_init G).ip_vs_ca_conn_tab_mask = 2 ^ G.ip_vs_ca_conn_tab_bits - 1 := by
    simp [conn_tab_size_init, Nat.one_shiftLeft]
  have hls : (conn_tab_size_init G).ct_lockarray_size =
      (conn_tab_size_init G).ip_vs_ca_conn_tab_size := rfl
  have hlm : (conn_tab_size_init G).ct_lockarray_mask =
      (conn_tab_size_init G).ip_vs_ca_conn_tab_mask := rfl
  have hpos : 0 < 2 ^ G.ip_vs_ca_conn_tab_bits := Nat.two_pow_pos _
  obtain ⟨x, hx⟩ := hashkey_eq_land E (conn_tab_size_init G) af proto addr port
  have hlt : ip_vs_ca_conn_hashkey E (conn_tab_size_init G) af proto addr port <
      2 ^ G.ip_vs_ca_conn_tab_bits := by
    rw [hx, hm]
    exact Nat.and_lt_two_pow x (by omega)
  refine ⟨hs, ?_, hm, hls, hlm, rfl, by rw [hs]; exact hlt, ?_, by rw [hls, hs]; exact hlt⟩
  · rw [hs]
    exact Nat.pow_lt_pow_right (by decide) (by omega)
  · rw [hlm, hx, Nat.land_assoc, Nat.and_self]

/-- Witness for C17: exponent 8 on globals that still hold the compiled-in
sizes. -/
theorem conn_tab_size_init_bounds_witness :
    G_uninit.ip_vs_ca_conn_tab_bits ≤ 30 ∧
    (conn_tab_size_init G_uninit).ip_vs_ca_conn_tab_size = 2 ^ 8 ∧
    (conn_tab_size_init G_uninit).ip_vs_ca_conn_tab_mask = 2 ^ 8 - 1 ∧
    (conn_tab_size_init G_uninit).ct_lockarray_size = 256 ∧
    (conn_tab_size_init G_uninit).ct_lockarray_mask = 255 ∧
    ip_vs_ca_conn_hashkey E0 (conn_tab_size_init G_uninit) AF_INET IPPROTO_TCP
      (ipv4 10 0 0 1) (htons 80) < 256 :=
  have hw := conn_tab_size_init_bounds E0 G_uninit (by decide) AF_INET IPPROTO_TCP
    (ipv4 10 0 0 1) (htons 80)
  ⟨by decide, hw.1, hw.2.2.1, hw.2.2.2.1.trans hw.1, hw.2.2.2.2.1.trans hw.2.2.1,
    hw.2.2.2.2.2.2.1.trans_eq hw.1⟩

/-! ## Claim C18: hash followed by unhash -/

theorem stamped_same {tab tab1 : Nat → List Nat} {stamp : Nat → Nat} {clock : Nat}
    (h : stamped tab stamp clock) (he : tab1 = tab) : stamped tab1 stamp clock :=
  he ▸ h

/-- A successful `ip_vs_ca_conn_new` increments the live-entry counter and
the number of allocations by 1 each and frees nothing. -/
theorem new_counts (E : Env) (G : Globals) (cp : Nat) (af : Int) (pp : ip_vs_ca_protocol)
    (saddr : nf_inet_addr) (sport : Nat) (daddr : nf_inet_addr) (dport : Nat)
    (caddr : nf_inet_addr) (cport : Nat) (st : State) :
    (ip_vs_ca_conn_new E G (some cp) af pp saddr sport daddr dport caddr cport
      st).2.ip_vs_ca_conn_count = st.ip_vs_ca_conn_count + 1 ∧
    (ip_vs_ca_conn_new E G (some cp) af pp saddr sport daddr dport caddr cport
      st).2.kmem_allocs = st.kmem_allocs + 1 ∧
    (ip_vs_ca_conn_new E G (some cp) af pp saddr sport daddr dport caddr cport
      st).2.kmem_frees = st.kmem_frees := by
  rw [new_closed]
  exact ⟨rfl, rfl, rfl⟩

/-- The expiry callback and the live-entry counter: the counter drops by 1
exactly when the entry is hashed and referenced by the table only; the entry
is freed in that case only if its family is `AF_INET` (or `AF_INET6` with
IPv6 compiled in).  For the other families the counter drops although
nothing is freed. -/
theorem expire_counts (E : Env) (G : Globals) (jiffies cp : Nat) (st : State) :
    (¬ (is_hashed E (st.mem cp) ∧ (st.mem cp).refcnt = 1) →
      (ip_vs_ca_conn_expire E G jiffies cp st).ip_vs_ca_conn_count = st.ip_vs_ca_conn_count ∧
      (ip_vs_ca_conn_expire E G jiffies cp st).kmem_frees = st.kmem_frees) ∧
    (is_hashed E (st.mem cp) ∧ (st.mem cp).refcnt = 1 → freed_family E (st.mem cp).af →
      (ip_vs_ca_conn_expire E G jiffies cp st).ip_vs_ca_conn_count =
        st.ip_vs_ca_conn_count - 1 ∧
      (ip_vs_ca_conn_expire E G jiffies cp st).kmem_frees = st.kmem_frees + 1) ∧
    (expire_rehashes E (st.mem cp) →
      (ip_vs_ca_conn_expire E G jiffies cp st).ip_vs_ca_conn_count =
        st.ip_vs_ca_conn_count - 1 ∧
      (ip_vs_ca_conn_expire E G jiffies cp st).kmem_frees = st.kmem_frees ∧
      (ip_vs_ca_conn_expire E G jiffies cp st).allocated = st.allocated) ∧
    (ip_vs_ca_conn_expire E G jiffies cp st).kmem_allocs = st.kmem_allocs := by
  refine ⟨fun h => ?_, fun h haf => ?_, fun h => ?_, ?_⟩
  · rw [expire_of_not_ready G jiffies h]
    exact ⟨rfl, rfl⟩
  · rw [expire_of_ready_freed G jiffies h haf]
    exact ⟨rfl, rfl⟩
  · rw [expire_of_ready_kept G jiffies ⟨h.1, h.2.1⟩ h.2.2]
    exact ⟨rfl, rfl, rfl⟩
  · by_cases h : is_hashed E (st.mem cp) ∧ (st.mem cp).refcnt = 1
    · by_cases haf : freed_family E (st.mem cp).af
      · rw [expire_of_ready_freed G jiffies h haf]
        rfl
      · rw [expire_of_ready_kept G jiffies h haf]
        rfl
    · rw [expire_of_not_ready G jiffies h]
      rfl

end CaConn
